import Mathlib

/-!
Verification of the map-calibration and track-rendering core of the
routechoices live GPS server.  The embedded JavaScript sources are
`src/js/generate_map.js`, `src/js/lib/mapdump.js` and
`src/static_assets/scripts/dashboard/map_edit.js`.

JavaScript numbers are modelled by real numbers; where the sources can
produce the IEEE special values NaN and plus/minus infinity, the type
`JSNum` below makes those values explicit.  `Math.sqrt`, `Math.log`,
`Math.tan`, `Math.atan2` are modelled by the corresponding real functions
(`Real.sqrt` etc.); all theorems below only evaluate them on arguments in
the domain where the JavaScript functions agree with the real ones.
-/

namespace RC

/-- Model of a JavaScript number: a finite real, or NaN, or an infinity. -/
inductive JSNum where
  | fin (x : ℝ)
  | nan
  | inf
  | ninf

namespace JSNum

/-- JavaScript subtraction `x - y` on possibly non-finite numbers. -/
def sub : JSNum → JSNum → JSNum
  | nan, _ => nan
  | _, nan => nan
  | fin x, fin y => fin (x - y)
  | inf, inf => nan
  | inf, _ => inf
  | ninf, ninf => nan
  | ninf, _ => ninf
  | fin _, inf => ninf
  | fin _, ninf => inf

/-- JavaScript division `x / y` on possibly non-finite numbers (the sign of
IEEE zero is not tracked: division by zero uses the sign rules of `+0`). -/
noncomputable def div : JSNum → JSNum → JSNum
  | nan, _ => nan
  | _, nan => nan
  | fin x, fin y =>
      if y = 0 then (if x = 0 then nan else if 0 < x then inf else ninf)
      else fin (x / y)
  | inf, fin y => if y < 0 then ninf else inf
  | ninf, fin y => if y < 0 then inf else ninf
  | fin _, inf => fin 0
  | fin _, ninf => fin 0
  | inf, inf => nan
  | inf, ninf => nan
  | ninf, inf => nan
  | ninf, ninf => nan

/-- JavaScript `Math.max` (NaN propagates). -/
noncomputable def jmax : JSNum → JSNum → JSNum
  | nan, _ => nan
  | _, nan => nan
  | fin x, fin y => fin (max x y)
  | inf, _ => inf
  | _, inf => inf
  | ninf, y => y
  | x, ninf => x

/-- JavaScript `Math.min` (NaN propagates). -/
noncomputable def jmin : JSNum → JSNum → JSNum
  | nan, _ => nan
  | _, nan => nan
  | fin x, fin y => fin (min x y)
  | ninf, _ => ninf
  | _, ninf => ninf
  | inf, y => y
  | x, inf => x

/-- JavaScript `Number.isNaN`. -/
def isNaN : JSNum → Bool
  | nan => true
  | _ => false

end JSNum

/-- Pixel or meters point (source: pseudo-class `Point`). -/
structure Point where
  x : ℝ
  y : ℝ

/-- Geographic coordinate in degrees (source: pseudo-class `LatLon`). -/
structure LatLon where
  lat : ℝ
  lon : ℝ

/-- Earth equatorial radius used by the sources (`rad = 6378137`). -/
def rad : ℝ := 6378137

/-- Source: `originShift = pi * rad` in `SpheroidProjection`. -/
noncomputable def originShift : ℝ := Real.pi * rad

/-- Source: `pi_180 = pi / 180` in `SpheroidProjection`. -/
noncomputable def pi_over_180 : ℝ := Real.pi / 180

/-- Source: `SpheroidProjection.LatLonToMeters` in `generate_map.js`. -/
noncomputable def LatLonToMeters (c : LatLon) : Point :=
  ⟨c.lon * rad * pi_over_180,
   Real.log (Real.tan ((90 + c.lat) * pi_over_180 / 2)) * rad⟩

/-- Source: `SpheroidProjection.resolution(zoom)` in `generate_map.js`. -/
noncomputable def resolution (zoom : ℕ) : ℝ :=
  2 * originShift / (256 * 2 ^ zoom)

/-- Loop body of `SpheroidProjection.zoomForPixelSize`: the JavaScript
`for (let i = 0; i < 30; i++)` scan; falling off the loop returns
`undefined`, modelled as `none`.  `Math.max(i - 1, 0)` coincides with
truncated subtraction on `ℕ`. -/
noncomputable def zoomForPixelSizeLoop (pixelSize : ℝ) (i : ℕ) : Option ℕ :=
  if 30 ≤ i then none
  else if resolution i < pixelSize then some (i - 1)
  else zoomForPixelSizeLoop pixelSize (i + 1)
termination_by 30 - i

/-- Source: `SpheroidProjection.zoomForPixelSize(pixelSize)`. -/
noncomputable def zoomForPixelSize (pixelSize : ℝ) : Option ℕ :=
  zoomForPixelSizeLoop pixelSize 0

/-- JavaScript `Math.atan2 (y, x)`. -/
noncomputable def atan2 (y x : ℝ) : ℝ :=
  if 0 < x then Real.arctan (y / x)
  else if x < 0 then
    (if 0 ≤ y then Real.arctan (y / x) + Real.pi
     else Real.arctan (y / x) - Real.pi)
  else
    (if 0 < y then Real.pi / 2 else if y < 0 then -(Real.pi / 2) else 0)

/-- The haversine quantity `a` computed inside `LatLon.distance`. -/
noncomputable def haversineA (p q : LatLon) : ℝ :=
  Real.sin (Real.pi / 180 * (p.lat - q.lat) / 2) ^ 2 +
    Real.cos (Real.pi / 180 * p.lat) * Real.cos (Real.pi / 180 * q.lat) *
      Real.sin (Real.pi / 180 * (p.lon - q.lon) / 2) ^ 2

/-- Source: `LatLon.prototype.distance` in `generate_map.js` (haversine-style
great-circle distance with constant `12756274`, twice the equatorial
radius). -/
noncomputable def LatLon.distance (p q : LatLon) : ℝ :=
  12756274 * atan2 (Real.sqrt (haversineA p q)) (Real.sqrt (1 - haversineA p q))

lemma originShift_pos : 0 < originShift := by
  have h := Real.pi_pos
  unfold originShift rad
  positivity

lemma resolution_pos (z : ℕ) : 0 < resolution z := by
  have h := originShift_pos
  unfold resolution
  positivity

lemma resolution_succ (z : ℕ) : resolution (z + 1) = resolution z / 2 := by
  unfold resolution
  rw [pow_succ]
  ring

lemma resolution_zero_lt (s : ℝ) (h : resolution 0 < s) (z : ℕ) :
    resolution z < s := by
  induction z with
  | zero => exact h
  | succ n ih =>
      have hp := resolution_pos n
      calc resolution (n + 1) = resolution n / 2 := resolution_succ n
        _ < resolution n := by linarith
        _ < s := ih

/-- If `i0 ≤ 29` is the first zoom whose resolution is strictly below the
pixel size, the scan started anywhere at or before `i0` returns
`some (i0 - 1)`. -/
lemma zoomForPixelSizeLoop_eq (s : ℝ) (i0 : ℕ) (h0 : i0 ≤ 29)
    (htrig : resolution i0 < s) (hmin : ∀ j < i0, ¬ resolution j < s) :
    ∀ d j, i0 - j = d → j ≤ i0 → zoomForPixelSizeLoop s j = some (i0 - 1) := by
  intro d
  induction d with
  | zero =>
      intro j hd hj
      have hji : j = i0 := le_antisymm hj (Nat.le_of_sub_eq_zero hd)
      subst hji
      rw [zoomForPixelSizeLoop]
      have h30 : ¬ 30 ≤ j := by omega
      simp [h30, htrig]
  | succ d ih =>
      intro j hd hj
      have hjlt : j < i0 := by omega
      rw [zoomForPixelSizeLoop]
      have h30 : ¬ 30 ≤ j := by omega
      have hnt : ¬ resolution j < s := hmin j hjlt
      simp only [h30, if_false, hnt]
      exact ih (j + 1) (by omega) (by omega)

lemma resolution_antitone {z1 z2 : ℕ} (h : z1 ≤ z2) :
    resolution z2 ≤ resolution z1 := by
  induction h with
  | refl => exact le_refl _
  | step _ ih =>
      rename_i m _
      have hp := resolution_pos m
      calc resolution (m + 1) = resolution m / 2 := resolution_succ m
        _ ≤ resolution m := by linarith
        _ ≤ resolution z1 := ih

lemma res0_gt_100000 : (100000 : ℝ) < resolution 0 := by
  have h3 := Real.pi_gt_three
  unfold resolution originShift rad
  rw [pow_zero, mul_one]
  rw [lt_div_iff (by norm_num)]
  nlinarith

lemma res1_lt_100000 : resolution 1 < 100000 := by
  have h3 := Real.pi_lt_315
  unfold resolution originShift rad
  rw [div_lt_iff (by norm_num)]
  nlinarith

lemma res29_lt_100000 : resolution 29 < (100000 : ℝ) :=
  lt_of_le_of_lt (resolution_antitone (by norm_num)) res1_lt_100000

/-- Claim C6, counterexample: at pixel size `100000` the code returns zoom
`0`, yet zoom `0` does not have resolution `≤ 100000`; the smallest zoom
whose resolution is `≤ 100000` is `1`, so the returned value is not the
smallest zoom level whose resolution is less than or equal to the given
size. -/
theorem C6_counterexample :
    zoomForPixelSize 100000 = some 0 ∧ resolution 1 ≤ 100000 ∧
      ¬ resolution 0 ≤ 100000 := by
  refine ⟨?_, le_of_lt res1_lt_100000, not_le.mpr res0_gt_100000⟩
  have hmin : ∀ j < 1, ¬ resolution j < (100000 : ℝ) := by
    intro j hj
    interval_cases j
    exact not_lt.mpr (le_of_lt res0_gt_100000)
  exact zoomForPixelSizeLoop_eq 100000 1 (by norm_num) res1_lt_100000 hmin 1 0
    rfl (Nat.zero_le _)

/-- Claim C6, amended: for every pixel size strictly greater than the zoom-29
resolution, `zoomForPixelSize` returns `some z` where `z + 1` is the first
zoom in `0..29` whose resolution is strictly smaller than the size; hence
`z` is the largest zoom whose resolution is at least the size (with a floor
at `0` when even zoom 0 resolves below the size).  For pixel sizes at or
below the zoom-29 resolution the scan falls through and the result is
`undefined` (`none`). -/
theorem C6_theorem (s : ℝ) (h29 : resolution 29 < s) :
    ∃ z, zoomForPixelSize s = some z ∧ z ≤ 28 ∧ resolution (z + 1) < s ∧
      (z = 0 ∨ s ≤ resolution z) := by
  classical
  have hex : ∃ i, resolution i < s := ⟨29, h29⟩
  set i0 := Nat.find hex with hi0
  have htrig : resolution i0 < s := Nat.find_spec hex
  have hmin : ∀ j < i0, ¬ resolution j < s := fun j hj => Nat.find_min hex hj
  have h0 : i0 ≤ 29 := Nat.find_le h29
  refine ⟨i0 - 1, ?_, by omega, ?_, ?_⟩
  · exact zoomForPixelSizeLoop_eq s i0 h0 htrig hmin i0 0 rfl (Nat.zero_le _)
  · rcases Nat.eq_zero_or_pos i0 with h | h
    · have h1 : resolution 1 < s := by
        have := resolution_pos 0
        have h10 : resolution 1 = resolution 0 / 2 := resolution_succ 0
        have := h ▸ htrig
        simp only [h] at htrig ⊢
        linarith [resolution_succ 0, resolution_pos 0]
      simpa [h] using h1
    · have : i0 - 1 + 1 = i0 := by omega
      rw [this]
      exact htrig
  · rcases Nat.eq_zero_or_pos i0 with h | h
    · exact Or.inl (by omega)
    · exact Or.inr (not_lt.mp (hmin (i0 - 1) (by omega)))

/-- Witness for `C6_theorem` at pixel size `100000`. -/
theorem C6_witness :
    resolution 29 < (100000 : ℝ) ∧
      ∃ z, zoomForPixelSize 100000 = some z ∧ z ≤ 28 ∧
        resolution (z + 1) < 100000 ∧ (z = 0 ∨ (100000 : ℝ) ≤ resolution z) :=
  ⟨res29_lt_100000, C6_theorem 100000 res29_lt_100000⟩

/-- Row-major 3×3 matrix, matching the flat 9-element arrays of the
sources (`m[0] .. m[8]`). -/
@[ext]
structure Mat3 where
  m0 : ℝ
  m1 : ℝ
  m2 : ℝ
  m3 : ℝ
  m4 : ℝ
  m5 : ℝ
  m6 : ℝ
  m7 : ℝ
  m8 : ℝ

/-- Length-3 vector `[v[0], v[1], v[2]]`. -/
@[ext]
structure Vec3 where
  v0 : ℝ
  v1 : ℝ
  v2 : ℝ

/-- Source: `adj(m)` in `generate_map.js` (matrix adjugate). -/
def adj (m : Mat3) : Mat3 :=
  ⟨m.m4 * m.m8 - m.m5 * m.m7, m.m2 * m.m7 - m.m1 * m.m8, m.m1 * m.m5 - m.m2 * m.m4,
   m.m5 * m.m6 - m.m3 * m.m8, m.m0 * m.m8 - m.m2 * m.m6, m.m2 * m.m3 - m.m0 * m.m5,
   m.m3 * m.m7 - m.m4 * m.m6, m.m1 * m.m6 - m.m0 * m.m7, m.m0 * m.m4 - m.m1 * m.m3⟩

/-- Source: `multmm(a, b)` in `generate_map.js` (matrix product). -/
def multmm (a b : Mat3) : Mat3 :=
  ⟨a.m0 * b.m0 + a.m1 * b.m3 + a.m2 * b.m6,
   a.m0 * b.m1 + a.m1 * b.m4 + a.m2 * b.m7,
   a.m0 * b.m2 + a.m1 * b.m5 + a.m2 * b.m8,
   a.m3 * b.m0 + a.m4 * b.m3 + a.m5 * b.m6,
   a.m3 * b.m1 + a.m4 * b.m4 + a.m5 * b.m7,
   a.m3 * b.m2 + a.m4 * b.m5 + a.m5 * b.m8,
   a.m6 * b.m0 + a.m7 * b.m3 + a.m8 * b.m6,
   a.m6 * b.m1 + a.m7 * b.m4 + a.m8 * b.m7,
   a.m6 * b.m2 + a.m7 * b.m5 + a.m8 * b.m8⟩

/-- Source: `multmv(m, v)` in `generate_map.js`. -/
def multmv (m : Mat3) (v : Vec3) : Vec3 :=
  ⟨m.m0 * v.v0 + m.m1 * v.v1 + m.m2 * v.v2,
   m.m3 * v.v0 + m.m4 * v.v1 + m.m5 * v.v2,
   m.m6 * v.v0 + m.m7 * v.v1 + m.m8 * v.v2⟩

/-- Determinant of a 3×3 matrix (not spelt out in the sources, but the
scalar governing singularity of the adjugate-based solve). -/
def det (m : Mat3) : ℝ :=
  m.m0 * (m.m4 * m.m8 - m.m5 * m.m7) - m.m1 * (m.m3 * m.m8 - m.m5 * m.m6) +
    m.m2 * (m.m3 * m.m7 - m.m4 * m.m6)

/-- Scalar multiple of a vector. -/
def Vec3.scale (c : ℝ) (v : Vec3) : Vec3 :=
  ⟨c * v.v0, c * v.v1, c * v.v2⟩

/-- The matrix `m = [x1, x2, x3, y1, y2, y3, 1, 1, 1]` built first inside
`basisToPoints`. -/
def basisBase (x1 y1 x2 y2 x3 y3 : ℝ) : Mat3 :=
  ⟨x1, x2, x3, y1, y2, y3, 1, 1, 1⟩

/-- The vector `v = multmv(adj(m), [x4, y4, 1])` built inside
`basisToPoints`. -/
def basisWeights (x1 y1 x2 y2 x3 y3 x4 y4 : ℝ) : Vec3 :=
  multmv (adj (basisBase x1 y1 x2 y2 x3 y3)) ⟨x4, y4, 1⟩

/-- Source: `basisToPoints(x1, y1, x2, y2, x3, y3, x4, y4)` in
`generate_map.js`. -/
def basisToPoints (x1 y1 x2 y2 x3 y3 x4 y4 : ℝ) : Mat3 :=
  let m := basisBase x1 y1 x2 y2 x3 y3
  let v := basisWeights x1 y1 x2 y2 x3 y3 x4 y4
  multmm m ⟨v.v0, 0, 0, 0, v.v1, 0, 0, 0, v.v2⟩

/-- Source: `general2DProjection(x1s, y1s, x1d, y1d, ..., x4d, y4d)` in
`generate_map.js`: `multmm(d, adj(s))` for the source/destination
basis matrices. -/
def general2DProjection
    (x1s y1s x1d y1d x2s y2s x2d y2d x3s y3s x3d y3d x4s y4s x4d y4d : ℝ) :
    Mat3 :=
  multmm (basisToPoints x1d y1d x2d y2d x3d y3d x4d y4d)
    (adj (basisToPoints x1s y1s x2s y2s x3s y3s x4s y4s))

/-- Source: `project(m, x, y)` — real-arithmetic value of
`[v[0]/v[2], v[1]/v[2]]`.  (In all theorems below the homogeneous
component `v[2]` is non-zero, where real and JavaScript division agree;
`projectJS` covers the degenerate case.) -/
noncomputable def project (m : Mat3) (x y : ℝ) : ℝ × ℝ :=
  let v := multmv m ⟨x, y, 1⟩
  (v.v0 / v.v2, v.v1 / v.v2)

/-- Source: `project(m, x, y)` under JavaScript division semantics. -/
noncomputable def projectJS (m : Mat3) (x y : ℝ) : JSNum × JSNum :=
  let v := multmv m ⟨x, y, 1⟩
  (JSNum.div (.fin v.v0) (.fin v.v2), JSNum.div (.fin v.v1) (.fin v.v2))

/-- The `matrix3d` built inside `cornerCalTransform` in `generate_map.js`
(meters space as source, image pixels as destination). -/
noncomputable def cornerCalMatrix (width height : ℝ) (tl tr br bl : LatLon) :
    Mat3 :=
  let tlm := LatLonToMeters tl
  let trm := LatLonToMeters tr
  let brm := LatLonToMeters br
  let blm := LatLonToMeters bl
  general2DProjection tlm.x tlm.y 0 0 trm.x trm.y width 0
    brm.x brm.y width height blm.x blm.y 0 height

/-- Source: the closure returned by `cornerCalTransform` applied to a
coordinate (real-arithmetic version). -/
noncomputable def cornerCalTransform (width height : ℝ) (tl tr br bl : LatLon)
    (c : LatLon) : ℝ × ℝ :=
  let meters := LatLonToMeters c
  project (cornerCalMatrix width height tl tr br bl) meters.x meters.y

/-- Source: the closure returned by `cornerCalTransform` applied to a
coordinate, under JavaScript division semantics. -/
noncomputable def cornerCalTransformJS (width height : ℝ)
    (tl tr br bl : LatLon) (c : LatLon) : JSNum × JSNum :=
  let meters := LatLonToMeters c
  projectJS (cornerCalMatrix width height tl tr br bl) meters.x meters.y

lemma multmv_multmm (a b : Mat3) (v : Vec3) :
    multmv (multmm a b) v = multmv a (multmv b v) := by
  ext <;> simp [multmv, multmm] <;> ring

lemma multmv_scale (m : Mat3) (c : ℝ) (v : Vec3) :
    multmv m (Vec3.scale c v) = Vec3.scale c (multmv m v) := by
  ext <;> simp [multmv, Vec3.scale] <;> ring

lemma adj_mul_vec (m : Mat3) (v : Vec3) :
    multmv (adj m) (multmv m v) = Vec3.scale (det m) v := by
  ext <;> simp [multmv, adj, det, Vec3.scale] <;> ring

lemma b2p_e1 (x1 y1 x2 y2 x3 y3 x4 y4 : ℝ) :
    multmv (basisToPoints x1 y1 x2 y2 x3 y3 x4 y4) ⟨1, 0, 0⟩ =
      Vec3.scale (basisWeights x1 y1 x2 y2 x3 y3 x4 y4).v0 ⟨x1, y1, 1⟩ := by
  ext <;>
    simp [basisToPoints, basisBase, basisWeights, multmv, multmm, adj,
      Vec3.scale] <;> ring

lemma b2p_e2 (x1 y1 x2 y2 x3 y3 x4 y4 : ℝ) :
    multmv (basisToPoints x1 y1 x2 y2 x3 y3 x4 y4) ⟨0, 1, 0⟩ =
      Vec3.scale (basisWeights x1 y1 x2 y2 x3 y3 x4 y4).v1 ⟨x2, y2, 1⟩ := by
  ext <;>
    simp [basisToPoints, basisBase, basisWeights, multmv, multmm, adj,
      Vec3.scale] <;> ring

lemma b2p_e3 (x1 y1 x2 y2 x3 y3 x4 y4 : ℝ) :
    multmv (basisToPoints x1 y1 x2 y2 x3 y3 x4 y4) ⟨0, 0, 1⟩ =
      Vec3.scale (basisWeights x1 y1 x2 y2 x3 y3 x4 y4).v2 ⟨x3, y3, 1⟩ := by
  ext <;>
    simp [basisToPoints, basisBase, basisWeights, multmv, multmm, adj,
      Vec3.scale] <;> ring

lemma b2p_ones (x1 y1 x2 y2 x3 y3 x4 y4 : ℝ) :
    multmv (basisToPoints x1 y1 x2 y2 x3 y3 x4 y4) ⟨1, 1, 1⟩ =
      Vec3.scale (det (basisBase x1 y1 x2 y2 x3 y3)) ⟨x4, y4, 1⟩ := by
  ext <;>
    simp [basisToPoints, basisBase, basisWeights, multmv, multmm, adj, det,
      Vec3.scale] <;> ring

lemma det_b2p (x1 y1 x2 y2 x3 y3 x4 y4 : ℝ) :
    det (basisToPoints x1 y1 x2 y2 x3 y3 x4 y4) =
      det (basisBase x1 y1 x2 y2 x3 y3) *
        ((basisWeights x1 y1 x2 y2 x3 y3 x4 y4).v0 *
          ((basisWeights x1 y1 x2 y2 x3 y3 x4 y4).v1 *
            (basisWeights x1 y1 x2 y2 x3 y3 x4 y4).v2)) := by
  simp [basisToPoints, basisBase, basisWeights, multmv, multmm, adj, det]
  ring

lemma Vec3.scale_scale (a b : ℝ) (v : Vec3) :
    Vec3.scale a (Vec3.scale b v) = Vec3.scale (a * b) v := by
  ext <;> simp [Vec3.scale] <;> ring

lemma Vec3.one_scale (v : Vec3) : Vec3.scale 1 v = v := by
  ext <;> simp [Vec3.scale]

lemma project_eq_of_multmv (M : Mat3) (x y xd yd c : ℝ) (hc : c ≠ 0)
    (h : multmv M ⟨x, y, 1⟩ = Vec3.scale c ⟨xd, yd, 1⟩) :
    project M x y = (xd, yd) := by
  unfold project
  rw [h]
  simp only [Vec3.scale]
  rw [Prod.mk.injEq]
  constructor <;> (rw [mul_one]; field_simp)

lemma g2p_corner1
    (x1s y1s x1d y1d x2s y2s x2d y2d x3s y3s x3d y3d x4s y4s x4d y4d : ℝ)
    (hw0 : (basisWeights x1s y1s x2s y2s x3s y3s x4s y4s).v0 ≠ 0)
    (hdets : det (basisToPoints x1s y1s x2s y2s x3s y3s x4s y4s) ≠ 0)
    (hd0 : (basisWeights x1d y1d x2d y2d x3d y3d x4d y4d).v0 ≠ 0) :
    project (general2DProjection x1s y1s x1d y1d x2s y2s x2d y2d x3s y3s
      x3d y3d x4s y4s x4d y4d) x1s y1s = (x1d, y1d) := by
  have hp : Vec3.mk x1s y1s 1 =
      Vec3.scale ((basisWeights x1s y1s x2s y2s x3s y3s x4s y4s).v0)⁻¹
        (multmv (basisToPoints x1s y1s x2s y2s x3s y3s x4s y4s) ⟨1, 0, 0⟩) := by
    rw [b2p_e1, Vec3.scale_scale, inv_mul_cancel₀ hw0, Vec3.one_scale]
  apply project_eq_of_multmv _ _ _ _ _
    (((basisWeights x1s y1s x2s y2s x3s y3s x4s y4s).v0)⁻¹ *
      (det (basisToPoints x1s y1s x2s y2s x3s y3s x4s y4s) *
        (basisWeights x1d y1d x2d y2d x3d y3d x4d y4d).v0))
  · exact mul_ne_zero (inv_ne_zero hw0) (mul_ne_zero hdets hd0)
  · rw [general2DProjection, multmv_multmm, hp, multmv_scale, adj_mul_vec,
      multmv_scale, multmv_scale, b2p_e1, Vec3.scale_scale, Vec3.scale_scale,
      mul_assoc]

lemma g2p_corner2
    (x1s y1s x1d y1d x2s y2s x2d y2d x3s y3s x3d y3d x4s y4s x4d y4d : ℝ)
    (hw1 : (basisWeights x1s y1s x2s y2s x3s y3s x4s y4s).v1 ≠ 0)
    (hdets : det (basisToPoints x1s y1s x2s y2s x3s y3s x4s y4s) ≠ 0)
    (hd1 : (basisWeights x1d y1d x2d y2d x3d y3d x4d y4d).v1 ≠ 0) :
    project (general2DProjection x1s y1s x1d y1d x2s y2s x2d y2d x3s y3s
      x3d y3d x4s y4s x4d y4d) x2s y2s = (x2d, y2d) := by
  have hp : Vec3.mk x2s y2s 1 =
      Vec3.scale ((basisWeights x1s y1s x2s y2s x3s y3s x4s y4s).v1)⁻¹
        (multmv (basisToPoints x1s y1s x2s y2s x3s y3s x4s y4s) ⟨0, 1, 0⟩) := by
    rw [b2p_e2, Vec3.scale_scale, inv_mul_cancel₀ hw1, Vec3.one_scale]
  apply project_eq_of_multmv _ _ _ _ _
    (((basisWeights x1s y1s x2s y2s x3s y3s x4s y4s).v1)⁻¹ *
      (det (basisToPoints x1s y1s x2s y2s x3s y3s x4s y4s) *
        (basisWeights x1d y1d x2d y2d x3d y3d x4d y4d).v1))
  · exact mul_ne_zero (inv_ne_zero hw1) (mul_ne_zero hdets hd1)
  · rw [general2DProjection, multmv_multmm, hp, multmv_scale, adj_mul_vec,
      multmv_scale, multmv_scale, b2p_e2, Vec3.scale_scale, Vec3.scale_scale,
      mul_assoc]

lemma g2p_corner3
    (x1s y1s x1d y1d x2s y2s x2d y2d x3s y3s x3d y3d x4s y4s x4d y4d : ℝ)
    (hw2 : (basisWeights x1s y1s x2s y2s x3s y3s x4s y4s).v2 ≠ 0)
    (hdets : det (basisToPoints x1s y1s x2s y2s x3s y3s x4s y4s) ≠ 0)
    (hd2 : (basisWeights x1d y1d x2d y2d x3d y3d x4d y4d).v2 ≠ 0) :
    project (general2DProjection x1s y1s x1d y1d x2s y2s x2d y2d x3s y3s
      x3d y3d x4s y4s x4d y4d) x3s y3s = (x3d, y3d) := by
  have hp : Vec3.mk x3s y3s 1 =
      Vec3.scale ((basisWeights x1s y1s x2s y2s x3s y3s x4s y4s).v2)⁻¹
        (multmv (basisToPoints x1s y1s x2s y2s x3s y3s x4s y4s) ⟨0, 0, 1⟩) := by
    rw [b2p_e3, Vec3.scale_scale, inv_mul_cancel₀ hw2, Vec3.one_scale]
  apply project_eq_of_multmv _ _ _ _ _
    (((basisWeights x1s y1s x2s y2s x3s y3s x4s y4s).v2)⁻¹ *
      (det (basisToPoints x1s y1s x2s y2s x3s y3s x4s y4s) *
        (basisWeights x1d y1d x2d y2d x3d y3d x4d y4d).v2))
  · exact mul_ne_zero (inv_ne_zero hw2) (mul_ne_zero hdets hd2)
  · rw [general2DProjection, multmv_multmm, hp, multmv_scale, adj_mul_vec,
      multmv_scale, multmv_scale, b2p_e3, Vec3.scale_scale, Vec3.scale_scale,
      mul_assoc]

lemma g2p_corner4
    (x1s y1s x1d y1d x2s y2s x2d y2d x3s y3s x3d y3d x4s y4s x4d y4d : ℝ)
    (hbs : det (basisBase x1s y1s x2s y2s x3s y3s) ≠ 0)
    (hdets : det (basisToPoints x1s y1s x2s y2s x3s y3s x4s y4s) ≠ 0)
    (hbd : det (basisBase x1d y1d x2d y2d x3d y3d) ≠ 0) :
    project (general2DProjection x1s y1s x1d y1d x2s y2s x2d y2d x3s y3s
      x3d y3d x4s y4s x4d y4d) x4s y4s = (x4d, y4d) := by
  have hp : Vec3.mk x4s y4s 1 =
      Vec3.scale (det (basisBase x1s y1s x2s y2s x3s y3s))⁻¹
        (multmv (basisToPoints x1s y1s x2s y2s x3s y3s x4s y4s) ⟨1, 1, 1⟩) := by
    rw [b2p_ones, Vec3.scale_scale, inv_mul_cancel₀ hbs, Vec3.one_scale]
  apply project_eq_of_multmv _ _ _ _ _
    ((det (basisBase x1s y1s x2s y2s x3s y3s))⁻¹ *
      (det (basisToPoints x1s y1s x2s y2s x3s y3s x4s y4s) *
        det (basisBase x1d y1d x2d y2d x3d y3d)))
  · exact mul_ne_zero (inv_ne_zero hbs) (mul_ne_zero hdets hbd)
  · rw [general2DProjection, multmv_multmm, hp, multmv_scale, adj_mul_vec,
      multmv_scale, multmv_scale, b2p_ones, Vec3.scale_scale, Vec3.scale_scale,
      mul_assoc]

/-- The zero 3×3 matrix. -/
def Mat3.zero : Mat3 := ⟨0, 0, 0, 0, 0, 0, 0, 0, 0⟩

/-- Four points lying on one line `a·x + b·y + c = 0` (a calibration set
whose control points are collinear, making the basis matrix singular). -/
def collinearPts (p1 p2 p3 p4 : Point) : Prop :=
  ∃ a b c : ℝ, (a ≠ 0 ∨ b ≠ 0) ∧
    a * p1.x + b * p1.y + c = 0 ∧ a * p2.x + b * p2.y + c = 0 ∧
    a * p3.x + b * p3.y + c = 0 ∧ a * p4.x + b * p4.y + c = 0

lemma det3_eq_zero (a b c px py qx qy rx ry : ℝ) (hab : a ≠ 0 ∨ b ≠ 0)
    (h1 : a * px + b * py + c = 0) (h2 : a * qx + b * qy + c = 0)
    (h3 : a * rx + b * ry + c = 0) :
    px * (qy - ry) + qx * (ry - py) + rx * (py - qy) = 0 := by
  rcases hab with ha | hb
  · have h : a * (px * (qy - ry) + qx * (ry - py) + rx * (py - qy)) = 0 := by
      linear_combination (qy - ry) * h1 + (ry - py) * h2 + (py - qy) * h3
    exact (mul_eq_zero.mp h).resolve_left ha
  · have h : b * (px * (qy - ry) + qx * (ry - py) + rx * (py - qy)) = 0 := by
      linear_combination (-(qx - rx)) * h1 + (-(rx - px)) * h2 + (-(px - qx)) * h3
    exact (mul_eq_zero.mp h).resolve_left hb

lemma basisWeights_zero_of_collinear (p1 p2 p3 p4 : Point)
    (hcol : collinearPts p1 p2 p3 p4) :
    basisWeights p1.x p1.y p2.x p2.y p3.x p3.y p4.x p4.y = ⟨0, 0, 0⟩ := by
  obtain ⟨a, b, c, hab, h1, h2, h3, h4⟩ := hcol
  have d0 := det3_eq_zero a b c p4.x p4.y p2.x p2.y p3.x p3.y hab h4 h2 h3
  have d1 := det3_eq_zero a b c p4.x p4.y p3.x p3.y p1.x p1.y hab h4 h3 h1
  have d2 := det3_eq_zero a b c p4.x p4.y p1.x p1.y p2.x p2.y hab h4 h1 h2
  ext
  · show (basisWeights _ _ _ _ _ _ _ _).v0 = 0
    simp only [basisWeights, basisBase, adj, multmv]
    linear_combination d0
  · show (basisWeights _ _ _ _ _ _ _ _).v1 = 0
    simp only [basisWeights, basisBase, adj, multmv]
    linear_combination d1
  · show (basisWeights _ _ _ _ _ _ _ _).v2 = 0
    simp only [basisWeights, basisBase, adj, multmv]
    linear_combination d2

lemma b2p_zero_of_collinear (p1 p2 p3 p4 : Point)
    (hcol : collinearPts p1 p2 p3 p4) :
    basisToPoints p1.x p1.y p2.x p2.y p3.x p3.y p4.x p4.y = Mat3.zero := by
  have hw := basisWeights_zero_of_collinear p1 p2 p3 p4 hcol
  ext <;> simp [basisToPoints, multmm, hw, Mat3.zero]

lemma adj_zero : adj Mat3.zero = Mat3.zero := by
  ext <;> simp [adj, Mat3.zero]

lemma multmm_zero_right (m : Mat3) : multmm m Mat3.zero = Mat3.zero := by
  ext <;> simp [multmm, Mat3.zero]

lemma multmv_zero (v : Vec3) : multmv Mat3.zero v = ⟨0, 0, 0⟩ := by
  ext <;> simp [multmv, Mat3.zero]

/-- With collinear meters control points, the matrix built by
`cornerCalTransform` is exactly the zero matrix, and the returned closure
outputs NaN (a JavaScript `0/0`) in both pixel coordinates at every query
point: the code returns a transform object with non-finite outputs instead
of failing. -/
lemma cornerCalTransformJS_nan_of_collinear (w h : ℝ) (tl tr br bl : LatLon)
    (hcol : collinearPts (LatLonToMeters tl) (LatLonToMeters tr)
      (LatLonToMeters br) (LatLonToMeters bl)) (c : LatLon) :
    cornerCalTransformJS w h tl tr br bl c = (JSNum.nan, JSNum.nan) := by
  have hs := b2p_zero_of_collinear _ _ _ _ hcol
  simp only [cornerCalTransformJS, cornerCalMatrix, general2DProjection,
    projectJS]
  rw [hs, adj_zero, multmm_zero_right, multmv_zero]
  simp [JSNum.div]

/-- The meters-space image of a point on the equator has `y = 0`. -/
lemma latLonToMeters_equator_y (lon : ℝ) :
    (LatLonToMeters ⟨0, lon⟩).y = 0 := by
  show Real.log (Real.tan ((90 + 0) * pi_over_180 / 2)) * rad = 0
  have h : ((90 : ℝ) + 0) * pi_over_180 / 2 = Real.pi / 4 := by
    unfold pi_over_180; ring
  rw [h, Real.tan_pi_div_four, Real.log_one, zero_mul]

/-- Claim C1, amended: `cornerCalTransform` performs no degeneracy check and
raises no error; for every calibration whose four meters-space control
points are collinear it still returns a transform closure, whose output is
the non-finite pair (NaN, NaN) at every query coordinate (the homogeneous
solve collapses to the zero matrix and the projection divides `0/0`). -/
theorem C1_theorem (w h : ℝ) (tl tr br bl : LatLon)
    (hcol : collinearPts (LatLonToMeters tl) (LatLonToMeters tr)
      (LatLonToMeters br) (LatLonToMeters bl)) (c : LatLon) :
    cornerCalTransformJS w h tl tr br bl c = (JSNum.nan, JSNum.nan) :=
  cornerCalTransformJS_nan_of_collinear w h tl tr br bl hcol c

/-- Claim C1, counterexample to the claim as stated: for the concrete
collinear calibration with all four corners on the equator, the code does
return a transform object (no `DegenerateCalibrationError` exists anywhere
in the sources), and the returned transform's output at the concrete query
coordinate `(1, 2)` is the non-finite pair (NaN, NaN). -/
theorem C1_counterexample :
    cornerCalTransformJS 1000 800 ⟨0, 0⟩ ⟨0, 10⟩ ⟨0, 20⟩ ⟨0, 30⟩ ⟨1, 2⟩ =
      (JSNum.nan, JSNum.nan) := by
  apply cornerCalTransformJS_nan_of_collinear
  refine ⟨0, 1, 0, Or.inr one_ne_zero, ?_, ?_, ?_, ?_⟩ <;>
    rw [latLonToMeters_equator_y] <;> ring

/-- Witness for `C1_theorem`: the equator calibration is collinear and the
theorem applies to it at query coordinate `(1, 2)`. -/
theorem C1_witness :
    collinearPts (LatLonToMeters ⟨0, 0⟩) (LatLonToMeters ⟨0, 10⟩)
        (LatLonToMeters ⟨0, 20⟩) (LatLonToMeters ⟨0, 30⟩) ∧
      cornerCalTransformJS 1000 800 ⟨0, 0⟩ ⟨0, 10⟩ ⟨0, 20⟩ ⟨0, 30⟩ ⟨1, 2⟩ =
        (JSNum.nan, JSNum.nan) := by
  have hcol : collinearPts (LatLonToMeters ⟨0, 0⟩) (LatLonToMeters ⟨0, 10⟩)
      (LatLonToMeters ⟨0, 20⟩) (LatLonToMeters ⟨0, 30⟩) := by
    refine ⟨0, 1, 0, Or.inr one_ne_zero, ?_, ?_, ?_, ?_⟩ <;>
      rw [latLonToMeters_equator_y] <;> ring
  exact ⟨hcol, C1_theorem 1000 800 ⟨0, 0⟩ ⟨0, 10⟩ ⟨0, 20⟩ ⟨0, 30⟩ hcol ⟨1, 2⟩⟩

/-- Source: `solveAffineMatrix(r1, s1, t1, r2, s2, t2, r3, s3, t3)` in
`map_edit.js`, returning the coefficient triple `[a, b, c]`. -/
noncomputable def solveAffineMatrix (r1 s1 t1 r2 s2 t2 r3 s3 t3 : ℝ) :
    ℝ × ℝ × ℝ :=
  let a := ((t2 - t3) * (s1 - s2) - (t1 - t2) * (s2 - s3)) /
    ((r2 - r3) * (s1 - s2) - (r1 - r2) * (s2 - s3))
  let b := ((t2 - t3) * (r1 - r2) - (t1 - t2) * (r2 - r3)) /
    ((s2 - s3) * (r1 - r2) - (s1 - s2) * (r2 - r3))
  (a, b, t1 - r1 * a - s1 * b)

/-- A control point handed to `deriveAffineTransform`: raster pixel `xy`
and meters-space `latLonMeters`. -/
structure CalPt where
  xy : Point
  latLonMeters : Point

/-- The pixel coordinates of the first control point after the `e = 1e-15`
perturbation applied by `deriveAffineTransform` (`x -= e; y += e`). -/
noncomputable def perturbedA (a : CalPt) : Point :=
  ⟨a.xy.x - 1e-15, a.xy.y + 1e-15⟩

/-- Perturbed second control point (`x += e; y -= e`). -/
noncomputable def perturbedB (b : CalPt) : Point :=
  ⟨b.xy.x + 1e-15, b.xy.y - 1e-15⟩

/-- Perturbed third control point (`x += e; y += e`). -/
noncomputable def perturbedC (c : CalPt) : Point :=
  ⟨c.xy.x + 1e-15, c.xy.y + 1e-15⟩

/-- Source: `deriveAffineTransform(a, b, c)` in `map_edit.js`: perturb the
pixel coordinates, then solve the two affine rows (meters `x` row and
meters `y` row). -/
noncomputable def deriveAffineTransform (a b c : CalPt) :
    (ℝ × ℝ × ℝ) × (ℝ × ℝ × ℝ) :=
  (solveAffineMatrix (perturbedA a).x (perturbedA a).y a.latLonMeters.x
     (perturbedB b).x (perturbedB b).y b.latLonMeters.x
     (perturbedC c).x (perturbedC c).y c.latLonMeters.x,
   solveAffineMatrix (perturbedA a).x (perturbedA a).y a.latLonMeters.y
     (perturbedB b).x (perturbedB b).y b.latLonMeters.y
     (perturbedC c).x (perturbedC c).y c.latLonMeters.y)

/-- The denominator of the `a`-coefficient solve for the perturbed control
points (both rows share it; the `b`-denominator is its negation). -/
noncomputable def affineDenom (a b c : CalPt) : ℝ :=
  ((perturbedB b).x - (perturbedC c).x) * ((perturbedA a).y - (perturbedB b).y) -
    ((perturbedA a).x - (perturbedB b).x) * ((perturbedB b).y - (perturbedC c).y)

/-- Evaluation of one affine coefficient row on a pixel point, exactly as
in `mapXYtoLatLng` in `map_edit.js` (`xy.x * k0 + xy.y * k1 + k2`). -/
noncomputable def applyAffine (k : ℝ × ℝ × ℝ) (p : Point) : ℝ :=
  p.x * k.1 + p.y * k.2.1 + k.2.2

lemma solveAffineMatrix_solves (r1 s1 t1 r2 s2 t2 r3 s3 t3 : ℝ)
    (hD : (r2 - r3) * (s1 - s2) - (r1 - r2) * (s2 - s3) ≠ 0) :
    r1 * (solveAffineMatrix r1 s1 t1 r2 s2 t2 r3 s3 t3).1 +
        s1 * (solveAffineMatrix r1 s1 t1 r2 s2 t2 r3 s3 t3).2.1 +
        (solveAffineMatrix r1 s1 t1 r2 s2 t2 r3 s3 t3).2.2 = t1 ∧
      r2 * (solveAffineMatrix r1 s1 t1 r2 s2 t2 r3 s3 t3).1 +
        s2 * (solveAffineMatrix r1 s1 t1 r2 s2 t2 r3 s3 t3).2.1 +
        (solveAffineMatrix r1 s1 t1 r2 s2 t2 r3 s3 t3).2.2 = t2 ∧
      r3 * (solveAffineMatrix r1 s1 t1 r2 s2 t2 r3 s3 t3).1 +
        s3 * (solveAffineMatrix r1 s1 t1 r2 s2 t2 r3 s3 t3).2.1 +
        (solveAffineMatrix r1 s1 t1 r2 s2 t2 r3 s3 t3).2.2 = t3 := by
  have hD2 : (s2 - s3) * (r1 - r2) - (s1 - s2) * (r2 - r3) ≠ 0 := by
    intro h
    exact hD (by linear_combination -h)
  simp only [solveAffineMatrix]
  refine ⟨by ring, ?_, ?_⟩ <;> (field_simp; ring)

lemma destWeights (w h : ℝ) :
    basisWeights 0 0 w 0 w h 0 h = ⟨w * h, -(w * h), w * h⟩ := by
  ext <;> simp [basisWeights, basisBase, adj, multmv] <;> ring

lemma destBase (w h : ℝ) : det (basisBase 0 0 w 0 w h) = w * h := by
  simp [det, basisBase]

/-- Non-degeneracy of a 4-corner calibration: the basis matrix of the first
three meters-space corners is regular and the three homogeneous weights of
the fourth are non-zero (this is exactly what makes the adjugate-based
solve of `basisToPoints` invertible). -/
noncomputable def cornerCalNondegenerate (tl tr br bl : LatLon) : Prop :=
  det (basisBase (LatLonToMeters tl).x (LatLonToMeters tl).y
      (LatLonToMeters tr).x (LatLonToMeters tr).y
      (LatLonToMeters br).x (LatLonToMeters br).y) ≠ 0 ∧
    (basisWeights (LatLonToMeters tl).x (LatLonToMeters tl).y
        (LatLonToMeters tr).x (LatLonToMeters tr).y
        (LatLonToMeters br).x (LatLonToMeters br).y
        (LatLonToMeters bl).x (LatLonToMeters bl).y).v0 ≠ 0 ∧
    (basisWeights (LatLonToMeters tl).x (LatLonToMeters tl).y
        (LatLonToMeters tr).x (LatLonToMeters tr).y
        (LatLonToMeters br).x (LatLonToMeters br).y
        (LatLonToMeters bl).x (LatLonToMeters bl).y).v1 ≠ 0 ∧
    (basisWeights (LatLonToMeters tl).x (LatLonToMeters tl).y
        (LatLonToMeters tr).x (LatLonToMeters tr).y
        (LatLonToMeters br).x (LatLonToMeters br).y
        (LatLonToMeters bl).x (LatLonToMeters bl).y).v2 ≠ 0

/-- Claim C2: a non-degenerate 4-corner calibration maps the four corner
coordinates exactly to the image corners `(0,0)`, `(w,0)`, `(w,h)`,
`(0,h)`; and a non-degenerate 3-point affine calibration reproduces all
three correspondences exactly at the `1e-15`-perturbed pixel positions
(both rows of `deriveAffineTransform`). -/
theorem C2_theorem (w h : ℝ) (tl tr br bl : LatLon) (A B C : CalPt)
    (hw : w ≠ 0) (hh : h ≠ 0) (hnd : cornerCalNondegenerate tl tr br bl)
    (hD : affineDenom A B C ≠ 0) :
    (cornerCalTransform w h tl tr br bl tl = (0, 0) ∧
      cornerCalTransform w h tl tr br bl tr = (w, 0) ∧
      cornerCalTransform w h tl tr br bl br = (w, h) ∧
      cornerCalTransform w h tl tr br bl bl = (0, h)) ∧
    (applyAffine (deriveAffineTransform A B C).1 (perturbedA A) =
        A.latLonMeters.x ∧
      applyAffine (deriveAffineTransform A B C).2 (perturbedA A) =
        A.latLonMeters.y ∧
      applyAffine (deriveAffineTransform A B C).1 (perturbedB B) =
        B.latLonMeters.x ∧
      applyAffine (deriveAffineTransform A B C).2 (perturbedB B) =
        B.latLonMeters.y ∧
      applyAffine (deriveAffineTransform A B C).1 (perturbedC C) =
        C.latLonMeters.x ∧
      applyAffine (deriveAffineTransform A B C).2 (perturbedC C) =
        C.latLonMeters.y) := by
  obtain ⟨hbs, hw0, hw1, hw2⟩ := hnd
  have hdets : det (basisToPoints (LatLonToMeters tl).x (LatLonToMeters tl).y
      (LatLonToMeters tr).x (LatLonToMeters tr).y
      (LatLonToMeters br).x (LatLonToMeters br).y
      (LatLonToMeters bl).x (LatLonToMeters bl).y) ≠ 0 := by
    rw [det_b2p]
    exact mul_ne_zero hbs (mul_ne_zero hw0 (mul_ne_zero hw1 hw2))
  have hwh : w * h ≠ 0 := mul_ne_zero hw hh
  have hd0 : (basisWeights 0 0 w 0 w h 0 h).v0 ≠ 0 := by
    rw [destWeights]; exact hwh
  have hd1 : (basisWeights 0 0 w 0 w h 0 h).v1 ≠ 0 := by
    rw [destWeights]; exact neg_ne_zero.mpr hwh
  have hd2 : (basisWeights 0 0 w 0 w h 0 h).v2 ≠ 0 := by
    rw [destWeights]; exact hwh
  have hbd : det (basisBase 0 0 w 0 w h) ≠ 0 := by
    rw [destBase]; exact hwh
  constructor
  · refine ⟨?_, ?_, ?_, ?_⟩
    · simp only [cornerCalTransform, cornerCalMatrix]
      exact g2p_corner1 _ _ _ _ _ _ _ _ _ _ _ _ _ _ _ _ hw0 hdets hd0
    · simp only [cornerCalTransform, cornerCalMatrix]
      exact g2p_corner2 _ _ _ _ _ _ _ _ _ _ _ _ _ _ _ _ hw1 hdets hd1
    · simp only [cornerCalTransform, cornerCalMatrix]
      exact g2p_corner3 _ _ _ _ _ _ _ _ _ _ _ _ _ _ _ _ hw2 hdets hd2
    · simp only [cornerCalTransform, cornerCalMatrix]
      exact g2p_corner4 _ _ _ _ _ _ _ _ _ _ _ _ _ _ _ _ hbs hdets hbd
  · unfold affineDenom at hD
    have hx := solveAffineMatrix_solves (perturbedA A).x (perturbedA A).y
      A.latLonMeters.x (perturbedB B).x (perturbedB B).y B.latLonMeters.x
      (perturbedC C).x (perturbedC C).y C.latLonMeters.x hD
    have hy := solveAffineMatrix_solves (perturbedA A).x (perturbedA A).y
      A.latLonMeters.y (perturbedB B).x (perturbedB B).y B.latLonMeters.y
      (perturbedC C).x (perturbedC C).y C.latLonMeters.y hD
    exact ⟨hx.1, hy.1, hx.2.1, hy.2.1, hx.2.2, hy.2.2⟩

lemma rectSrcBase (X Y : ℝ) : det (basisBase 0 Y X Y X 0) = -(X * Y) := by
  simp [det, basisBase]

lemma rectSrcWeights (X Y : ℝ) :
    basisWeights 0 Y X Y X 0 0 0 = ⟨-(X * Y), X * Y, -(X * Y)⟩ := by
  ext <;> simp [basisWeights, basisBase, adj, multmv] <;> ring

lemma tan_5pi12_gt_one : 1 < Real.tan (5 * Real.pi / 12) := by
  have hpi := Real.pi_pos
  have h := Real.tan_lt_tan_of_nonneg_of_lt_pi_div_two
    (x := Real.pi / 4) (y := 5 * Real.pi / 12) (by positivity)
    (by linarith) (by linarith)
  rwa [Real.tan_pi_div_four] at h

lemma witnessX_pos : 0 < rad * pi_over_180 := by
  have hpi := Real.pi_pos
  unfold rad pi_over_180
  positivity

lemma witnessY_pos : 0 < Real.log (Real.tan (5 * Real.pi / 12)) * rad := by
  have h := Real.log_pos tan_5pi12_gt_one
  have : (0 : ℝ) < rad := by unfold rad; norm_num
  positivity

lemma witness_nondegenerate :
    cornerCalNondegenerate ⟨60, 0⟩ ⟨60, 1⟩ ⟨0, 1⟩ ⟨0, 0⟩ := by
  have etlx : (LatLonToMeters ⟨60, 0⟩).x = 0 := by
    show (0 : ℝ) * rad * pi_over_180 = 0
    ring
  have harg : ((90 : ℝ) + 60) * pi_over_180 / 2 = 5 * Real.pi / 12 := by
    unfold pi_over_180; ring
  have etly : (LatLonToMeters ⟨60, 0⟩).y =
      Real.log (Real.tan (5 * Real.pi / 12)) * rad := by
    show Real.log (Real.tan (((90 : ℝ) + 60) * pi_over_180 / 2)) * rad = _
    rw [harg]
  have etrx : (LatLonToMeters ⟨60, 1⟩).x = rad * pi_over_180 := by
    show (1 : ℝ) * rad * pi_over_180 = _
    ring
  have etry : (LatLonToMeters ⟨60, 1⟩).y =
      Real.log (Real.tan (5 * Real.pi / 12)) * rad := by
    show Real.log (Real.tan (((90 : ℝ) + 60) * pi_over_180 / 2)) * rad = _
    rw [harg]
  have ebrx : (LatLonToMeters ⟨0, 1⟩).x = rad * pi_over_180 := by
    show (1 : ℝ) * rad * pi_over_180 = _
    ring
  have ebry : (LatLonToMeters ⟨0, 1⟩).y = 0 := latLonToMeters_equator_y 1
  have eblx : (LatLonToMeters ⟨0, 0⟩).x = 0 := by
    show (0 : ℝ) * rad * pi_over_180 = 0
    ring
  have ebly : (LatLonToMeters ⟨0, 0⟩).y = 0 := latLonToMeters_equator_y 0
  have hX := witnessX_pos
  have hY := witnessY_pos
  have hXY : rad * pi_over_180 * (Real.log (Real.tan (5 * Real.pi / 12)) * rad)
      ≠ 0 := by positivity
  unfold cornerCalNondegenerate
  rw [etlx, etly, etrx, etry, ebrx, ebry, eblx, ebly, rectSrcBase,
    rectSrcWeights]
  refine ⟨neg_ne_zero.mpr hXY, neg_ne_zero.mpr hXY, hXY, neg_ne_zero.mpr hXY⟩

lemma witness_affineDenom :
    affineDenom ⟨⟨0, 0⟩, ⟨3, 7⟩⟩ ⟨⟨1, 0⟩, ⟨11, 13⟩⟩ ⟨⟨0, 1⟩, ⟨17, 19⟩⟩ ≠ 0 := by
  unfold affineDenom perturbedA perturbedB perturbedC
  norm_num

/-- Witness for `C2_theorem`: a concrete non-degenerate rectangle
calibration (corners at latitudes 60/0, longitudes 0/1, image 1000×800)
and a concrete 3-point affine calibration. -/
theorem C2_witness :
    ((1000 : ℝ) ≠ 0 ∧ (800 : ℝ) ≠ 0 ∧
      cornerCalNondegenerate ⟨60, 0⟩ ⟨60, 1⟩ ⟨0, 1⟩ ⟨0, 0⟩ ∧
      affineDenom ⟨⟨0, 0⟩, ⟨3, 7⟩⟩ ⟨⟨1, 0⟩, ⟨11, 13⟩⟩ ⟨⟨0, 1⟩, ⟨17, 19⟩⟩ ≠ 0) ∧
    ((cornerCalTransform 1000 800 ⟨60, 0⟩ ⟨60, 1⟩ ⟨0, 1⟩ ⟨0, 0⟩ ⟨60, 0⟩ =
        (0, 0) ∧
      cornerCalTransform 1000 800 ⟨60, 0⟩ ⟨60, 1⟩ ⟨0, 1⟩ ⟨0, 0⟩ ⟨60, 1⟩ =
        (1000, 0) ∧
      cornerCalTransform 1000 800 ⟨60, 0⟩ ⟨60, 1⟩ ⟨0, 1⟩ ⟨0, 0⟩ ⟨0, 1⟩ =
        (1000, 800) ∧
      cornerCalTransform 1000 800 ⟨60, 0⟩ ⟨60, 1⟩ ⟨0, 1⟩ ⟨0, 0⟩ ⟨0, 0⟩ =
        (0, 800)) ∧
    (applyAffine (deriveAffineTransform ⟨⟨0, 0⟩, ⟨3, 7⟩⟩ ⟨⟨1, 0⟩, ⟨11, 13⟩⟩
          ⟨⟨0, 1⟩, ⟨17, 19⟩⟩).1 (perturbedA ⟨⟨0, 0⟩, ⟨3, 7⟩⟩) = 3 ∧
      applyAffine (deriveAffineTransform ⟨⟨0, 0⟩, ⟨3, 7⟩⟩ ⟨⟨1, 0⟩, ⟨11, 13⟩⟩
          ⟨⟨0, 1⟩, ⟨17, 19⟩⟩).2 (perturbedA ⟨⟨0, 0⟩, ⟨3, 7⟩⟩) = 7 ∧
      applyAffine (deriveAffineTransform ⟨⟨0, 0⟩, ⟨3, 7⟩⟩ ⟨⟨1, 0⟩, ⟨11, 13⟩⟩
          ⟨⟨0, 1⟩, ⟨17, 19⟩⟩).1 (perturbedB ⟨⟨1, 0⟩, ⟨11, 13⟩⟩) = 11 ∧
      applyAffine (deriveAffineTransform ⟨⟨0, 0⟩, ⟨3, 7⟩⟩ ⟨⟨1, 0⟩, ⟨11, 13⟩⟩
          ⟨⟨0, 1⟩, ⟨17, 19⟩⟩).2 (perturbedB ⟨⟨1, 0⟩, ⟨11, 13⟩⟩) = 13 ∧
      applyAffine (deriveAffineTransform ⟨⟨0, 0⟩, ⟨3, 7⟩⟩ ⟨⟨1, 0⟩, ⟨11, 13⟩⟩
          ⟨⟨0, 1⟩, ⟨17, 19⟩⟩).1 (perturbedC ⟨⟨0, 1⟩, ⟨17, 19⟩⟩) = 17 ∧
      applyAffine (deriveAffineTransform ⟨⟨0, 0⟩, ⟨3, 7⟩⟩ ⟨⟨1, 0⟩, ⟨11, 13⟩⟩
          ⟨⟨0, 1⟩, ⟨17, 19⟩⟩).2 (perturbedC ⟨⟨0, 1⟩, ⟨17, 19⟩⟩) = 19)) :=
  ⟨⟨by norm_num, by norm_num, witness_nondegenerate, witness_affineDenom⟩,
    C2_theorem 1000 800 ⟨60, 0⟩ ⟨60, 1⟩ ⟨0, 1⟩ ⟨0, 0⟩ ⟨⟨0, 0⟩, ⟨3, 7⟩⟩
      ⟨⟨1, 0⟩, ⟨11, 13⟩⟩ ⟨⟨0, 1⟩, ⟨17, 19⟩⟩ (by norm_num) (by norm_num)
      witness_nondegenerate witness_affineDenom⟩

/-- A track point as built by the CLI entry of `generate_map.js`: time in
milliseconds, `coordinates = [lat, lon]`. -/
structure TrackPoint where
  time : ℝ
  lat : ℝ
  lon : ℝ

/-- Junk value for out-of-range element accesses; every access in the
theorems below is in bounds. -/
def TrackPoint.dflt : TrackPoint := ⟨0, 0, 0⟩

/-- Great-circle distance summed over consecutive pairs of a list of track
points: the inner `for (j …) distance += from.distance(to)` loop of
`extractSpeed`, and the whole of `extractDistance`, in `mapdump.js`. -/
noncomputable def pairwiseDistance : List TrackPoint → ℝ
  | [] => 0
  | [_] => 0
  | p :: q :: rest =>
      LatLon.distance ⟨p.lat, p.lon⟩ ⟨q.lat, q.lon⟩ +
        pairwiseDistance (q :: rest)

/-- One iteration value of the outer loop of `extractSpeed` in
`mapdump.js`, before the NaN substitution: `minIdx = max(i-10, 0)`,
`maxIdx = min(minIdx+10, length-1)`, `portion = slice(minIdx, maxIdx)`
(end exclusive), `speed = distance / (t[maxIdx] - t[minIdx]) * 3600`,
with JavaScript semantics for the division by a zero elapsed time. -/
noncomputable def speedAt (track : List TrackPoint) (i : ℕ) : JSNum :=
  let minIdx := i - 10
  let maxIdx := min (minIdx + 10) (track.length - 1)
  let dist := pairwiseDistance ((track.drop minIdx).take (maxIdx - minIdx))
  let dt := (track.getD maxIdx TrackPoint.dflt).time -
    (track.getD minIdx TrackPoint.dflt).time
  if dt = 0 then
    (if dist = 0 then JSNum.nan else if 0 < dist then JSNum.inf else JSNum.ninf)
  else JSNum.fin (dist / dt * 3600)

/-- The outer loop of `extractSpeed`, carrying `prevSpeed`; a NaN speed is
replaced by the previous value. -/
noncomputable def extractSpeedGo (track : List TrackPoint) :
    List ℕ → JSNum → List JSNum
  | [], _ => []
  | i :: rest, prev =>
      let s0 := speedAt track i
      let s := if s0.isNaN then prev else s0
      s :: extractSpeedGo track rest s

/-- Source: `extractSpeed(trackPoints)` in `mapdump.js` (seed
`prevSpeed = 1`). -/
noncomputable def extractSpeed (track : List TrackPoint) : List JSNum :=
  extractSpeedGo track (List.range track.length) (JSNum.fin 1)

lemma atan2_nonneg (y x : ℝ) (hy : 0 ≤ y) : 0 ≤ atan2 y x := by
  unfold atan2
  rcases lt_trichotomy x 0 with hx | hx | hx
  · have h1 : ¬ 0 < x := by linarith
    have h2 := Real.neg_pi_div_two_lt_arctan (y / x)
    have hpi := Real.pi_pos
    simp only [h1, if_false, hx, if_true, hy, ite_true]
    linarith
  · subst hx
    simp only [lt_irrefl, if_false]
    rcases lt_or_eq_of_le hy with hy' | hy'
    · have hpi := Real.pi_pos
      simp only [hy', if_true]
      linarith
    · simp [← hy']
  · have h0 : 0 ≤ y / x := div_nonneg hy (le_of_lt hx)
    simp only [hx, if_true]
    calc (0 : ℝ) = Real.arctan 0 := Real.arctan_zero.symm
      _ ≤ Real.arctan (y / x) := Real.arctan_strictMono.monotone h0

lemma distance_nonneg (p q : LatLon) : 0 ≤ LatLon.distance p q := by
  unfold LatLon.distance
  have h := atan2_nonneg (Real.sqrt (haversineA p q))
    (Real.sqrt (1 - haversineA p q)) (Real.sqrt_nonneg _)
  positivity

lemma atan2_zero_one : atan2 0 1 = 0 := by
  unfold atan2
  simp [Real.arctan_zero]

lemma distance_self_coords (p q : LatLon) (hlat : p.lat = q.lat)
    (hlon : p.lon = q.lon) : LatLon.distance p q = 0 := by
  have ha : haversineA p q = 0 := by
    unfold haversineA
    rw [hlat, hlon]
    simp
  unfold LatLon.distance
  rw [ha]
  simp [atan2_zero_one]

lemma pairwiseDistance_nonneg (l : List TrackPoint) :
    0 ≤ pairwiseDistance l := by
  induction l with
  | nil => simp [pairwiseDistance]
  | cons p rest ih =>
      cases rest with
      | nil => simp [pairwiseDistance]
      | cons q rest2 =>
          rw [pairwiseDistance]
          have := distance_nonneg ⟨p.lat, p.lon⟩ ⟨q.lat, q.lon⟩
          linarith

lemma pairwiseDistance_zero (l : List TrackPoint)
    (h : ∀ p ∈ l, ∀ q ∈ l, p.lat = q.lat ∧ p.lon = q.lon) :
    pairwiseDistance l = 0 := by
  induction l with
  | nil => simp [pairwiseDistance]
  | cons p rest ih =>
      cases rest with
      | nil => simp [pairwiseDistance]
      | cons q rest2 =>
          rw [pairwiseDistance]
          have h1 := h p (by simp) q (by simp)
          have h2 : pairwiseDistance (q :: rest2) = 0 := by
            apply ih
            intro u hu v hv
            exact h u (List.mem_cons_of_mem p hu) v (List.mem_cons_of_mem p hv)
          rw [distance_self_coords _ _ h1.1 h1.2, h2]
          ring

lemma extractSpeedGo_get? (track : List TrackPoint) :
    ∀ (l : List ℕ) (k : ℕ) (i : ℕ) (prev : JSNum), l.get? k = some i →
      (speedAt track i).isNaN = false →
      (extractSpeedGo track l prev).get? k = some (speedAt track i) := by
  intro l
  induction l with
  | nil => intro k i prev h _; simp at h
  | cons j rest ih =>
      intro k i prev h hnn
      cases k with
      | zero =>
          simp only [List.get?] at h
          injection h with h
          subst h
          rw [extractSpeedGo]
          simp only [List.get?, hnn, Bool.false_eq_true, if_false]
      | succ k2 =>
          rw [extractSpeedGo]
          simp only [List.get?] at h ⊢
          exact ih k2 i _ h hnn

lemma extractSpeedGo_all (track : List TrackPoint) (P : JSNum → Prop) :
    ∀ (l : List ℕ) (prev : JSNum), P prev →
      (∀ i ∈ l, speedAt track i = JSNum.nan ∨ P (speedAt track i)) →
      ∀ s ∈ extractSpeedGo track l prev, P s := by
  intro l
  induction l with
  | nil => intro prev _ _ s hs; simp [extractSpeedGo] at hs
  | cons j rest ih =>
      intro prev hprev hall s hs
      rw [extractSpeedGo] at hs
      rcases List.mem_cons.mp hs with h | h
      · subst h
        rcases hall j (by simp) with hnan | hP
        · simp [hnan, JSNum.isNaN, hprev]
        · by_cases hb : (speedAt track j).isNaN
          · cases hj : speedAt track j <;> simp [hj, JSNum.isNaN] at hb ⊢
            · exact hprev
            all_goals simpa [hj] using hP
          · simp [hb]
            exact hP
      · apply ih _ _ _ s h
        · by_cases hb : (speedAt track j).isNaN
          · simpa [hb] using hprev
          · simpa [hb] using
              (hall j (by simp)).resolve_left (by
                intro hnan
                rw [hnan] at hb
                simp [JSNum.isNaN] at hb)
        · intro u hu
          exact hall u (List.mem_cons_of_mem _ hu)

lemma extractSpeedGo_all2 (track : List TrackPoint) (P : JSNum → Prop) :
    ∀ (l : List ℕ) (prev : JSNum),
      (∀ i ∈ l, (speedAt track i).isNaN = false ∧ P (speedAt track i)) →
      ∀ s ∈ extractSpeedGo track l prev, P s := by
  intro l
  induction l with
  | nil => intro prev _ s hs; simp [extractSpeedGo] at hs
  | cons j rest ih =>
      intro prev hall s hs
      rw [extractSpeedGo] at hs
      obtain ⟨hj, hPj⟩ := hall j (by simp)
      rcases List.mem_cons.mp hs with h | h
      · subst h
        simp [hj]
        exact hPj
      · exact ih _ (fun u hu => hall u (List.mem_cons_of_mem _ hu)) s
          (by simpa [hj] using h)

lemma speedAt_nan_of_trivial_window (track : List TrackPoint) (i : ℕ)
    (h : min (i - 10 + 10) (track.length - 1) = i - 10) :
    speedAt track i = JSNum.nan := by
  simp only [speedAt, h]
  simp [pairwiseDistance]

lemma strict_times_getD (track : List TrackPoint)
    (ht : track.Pairwise (fun p q => p.time < q.time)) (a b : ℕ)
    (hab : a < b) (hb : b < track.length) :
    (track.getD a TrackPoint.dflt).time < (track.getD b TrackPoint.dflt).time := by
  have ha : a < track.length := lt_trans hab hb
  rw [List.getD_eq_get? , List.getD_eq_get?]
  rw [List.get?_eq_get ha, List.get?_eq_get hb]
  simp only [Option.getD_some]
  exact List.pairwise_iff_get.mp ht ⟨a, ha⟩ ⟨b, hb⟩ hab

/-- Modelled from the spec wording of claim C3: the value it claims for
index `i`, namely the sum of great-circle distances between consecutive
points of the (closed) window from `max(i-10, 0)` to
`min(max(i-10,0)+10, length-1)` inclusive, divided by the elapsed time
between the window's end point and start point, in km/h. -/
noncomputable def specSpeedAt (track : List TrackPoint) (i : ℕ) : JSNum :=
  let minIdx := i - 10
  let maxIdx := min (minIdx + 10) (track.length - 1)
  let dist := pairwiseDistance ((track.drop minIdx).take (maxIdx - minIdx + 1))
  let dt := (track.getD maxIdx TrackPoint.dflt).time -
    (track.getD minIdx TrackPoint.dflt).time
  if dt = 0 then
    (if dist = 0 then JSNum.nan else if 0 < dist then JSNum.inf else JSNum.ninf)
  else JSNum.fin (dist / dt * 3600)

/-- Closed form of the `i`-th value of `extractSpeed` when the window's
elapsed time is non-zero (so no NaN substitution happens). -/
lemma extractSpeed_val (track : List TrackPoint) (i : ℕ)
    (hi : i < track.length)
    (hdt : (track.getD (min (i - 10 + 10) (track.length - 1))
        TrackPoint.dflt).time - (track.getD (i - 10) TrackPoint.dflt).time
        ≠ 0) :
    (extractSpeed track).get? i = some (JSNum.fin
      (pairwiseDistance ((track.drop (i - 10)).take
          (min (i - 10 + 10) (track.length - 1) - (i - 10))) /
        ((track.getD (min (i - 10 + 10) (track.length - 1))
            TrackPoint.dflt).time -
          (track.getD (i - 10) TrackPoint.dflt).time) * 3600)) := by
  have hs : speedAt track i = JSNum.fin
      (pairwiseDistance ((track.drop (i - 10)).take
          (min (i - 10 + 10) (track.length - 1) - (i - 10))) /
        ((track.getD (min (i - 10 + 10) (track.length - 1))
            TrackPoint.dflt).time -
          (track.getD (i - 10) TrackPoint.dflt).time) * 3600) := by
    simp only [speedAt]
    rw [if_neg hdt]
  have hnn : (speedAt track i).isNaN = false := by rw [hs]; rfl
  have hr : (List.range track.length).get? i = some i := List.get?_range hi
  rw [extractSpeed, extractSpeedGo_get? track (List.range track.length) i i
    (JSNum.fin 1) hr hnn, hs]

/-- Claim C3, amended: whenever the window's elapsed time is non-zero, the
`i`-th value of `extractSpeed` equals the sum of great-circle distances
between consecutive points of the end-exclusive slice
`[max(i-10,0), maxIdx)` — the segment ending at the window's end point
`maxIdx` is NOT included, because `slice(minIdx, maxIdx)` is
end-exclusive — divided by the elapsed time between point `maxIdx` and
point `minIdx` (in milliseconds), times 3600, i.e. km/h. -/
theorem C3_theorem (track : List TrackPoint) (i : ℕ) (hi : i < track.length)
    (hdt : (track.getD (min (i - 10 + 10) (track.length - 1))
        TrackPoint.dflt).time - (track.getD (i - 10) TrackPoint.dflt).time
        ≠ 0) :
    (extractSpeed track).get? i = some (JSNum.fin
      (pairwiseDistance ((track.drop (i - 10)).take
          (min (i - 10 + 10) (track.length - 1) - (i - 10))) /
        ((track.getD (min (i - 10 + 10) (track.length - 1))
            TrackPoint.dflt).time -
          (track.getD (i - 10) TrackPoint.dflt).time) * 3600)) :=
  extractSpeed_val track i hi hdt

/-- Witness for `C3_theorem`: the two-point stationary track
`[(t=0ms, 0, 0), (t=1000ms, 0, 0)]` at index 0. -/
theorem C3_witness :
    (0 < ([⟨0, 0, 0⟩, ⟨1000, 0, 0⟩] : List TrackPoint).length ∧
      (([⟨0, 0, 0⟩, ⟨1000, 0, 0⟩] : List TrackPoint).getD
          (min (0 - 10 + 10) (([⟨0, 0, 0⟩, ⟨1000, 0, 0⟩] :
            List TrackPoint).length - 1)) TrackPoint.dflt).time -
        (([⟨0, 0, 0⟩, ⟨1000, 0, 0⟩] : List TrackPoint).getD (0 - 10)
          TrackPoint.dflt).time ≠ 0) ∧
    (extractSpeed [⟨0, 0, 0⟩, ⟨1000, 0, 0⟩]).get? 0 = some (JSNum.fin
      (pairwiseDistance ((([⟨0, 0, 0⟩, ⟨1000, 0, 0⟩] :
          List TrackPoint).drop (0 - 10)).take
          (min (0 - 10 + 10) (([⟨0, 0, 0⟩, ⟨1000, 0, 0⟩] :
            List TrackPoint).length - 1) - (0 - 10))) /
        ((([⟨0, 0, 0⟩, ⟨1000, 0, 0⟩] : List TrackPoint).getD
            (min (0 - 10 + 10) (([⟨0, 0, 0⟩, ⟨1000, 0, 0⟩] :
              List TrackPoint).length - 1)) TrackPoint.dflt).time -
          (([⟨0, 0, 0⟩, ⟨1000, 0, 0⟩] : List TrackPoint).getD (0 - 10)
            TrackPoint.dflt).time) * 3600)) := by
  have h1 : (0 : ℕ) < ([⟨0, 0, 0⟩, ⟨1000, 0, 0⟩] : List TrackPoint).length :=
    by norm_num
  have h2 : (([⟨0, 0, 0⟩, ⟨1000, 0, 0⟩] : List TrackPoint).getD
      (min (0 - 10 + 10) (([⟨0, 0, 0⟩, ⟨1000, 0, 0⟩] :
        List TrackPoint).length - 1)) TrackPoint.dflt).time -
      (([⟨0, 0, 0⟩, ⟨1000, 0, 0⟩] : List TrackPoint).getD (0 - 10)
        TrackPoint.dflt).time ≠ 0 := by
    norm_num [List.getD]
  exact ⟨⟨h1, h2⟩, C3_theorem [⟨0, 0, 0⟩, ⟨1000, 0, 0⟩] 0 h1 h2⟩

lemma haversineA_antipodal : haversineA ⟨0, 0⟩ ⟨0, 180⟩ = 1 := by
  unfold haversineA
  simp only
  rw [show Real.pi / 180 * ((0 : ℝ) - 0) / 2 = 0 by ring,
    show Real.pi / 180 * ((0 : ℝ) - 180) / 2 = -(Real.pi / 2) by ring,
    show Real.pi / 180 * (0 : ℝ) = 0 by ring]
  rw [Real.sin_zero, Real.cos_zero, Real.sin_neg, Real.sin_pi_div_two]
  norm_num

lemma distance_antipodal_pos : 0 < LatLon.distance ⟨0, 0⟩ ⟨0, 180⟩ := by
  unfold LatLon.distance
  rw [haversineA_antipodal]
  rw [show (1 : ℝ) - 1 = 0 by ring, Real.sqrt_one, Real.sqrt_zero]
  unfold atan2
  norm_num
  exact Real.pi_pos

/-- Claim C3, counterexample: on the two-point track
`[(0ms, lat 0, lon 0), (1000ms, lat 0, lon 180)]` the code returns speed
`0` at index 0 (the end-exclusive `slice(minIdx, maxIdx)` drops the only
segment), whereas the claimed formula — distances summed over consecutive
points of the whole window, divided by the window's elapsed time — is the
strictly positive half-circumference speed. -/
theorem C3_counterexample :
    (extractSpeed [⟨0, 0, 0⟩, ⟨1000, 0, 180⟩]).get? 0 =
        some (JSNum.fin 0) ∧
      specSpeedAt [⟨0, 0, 0⟩, ⟨1000, 0, 180⟩] 0 ≠ JSNum.fin 0 := by
  constructor
  · have hdt : (([⟨0, 0, 0⟩, ⟨1000, 0, 180⟩] : List TrackPoint).getD
        (min (0 - 10 + 10) (([⟨0, 0, 0⟩, ⟨1000, 0, 180⟩] :
          List TrackPoint).length - 1)) TrackPoint.dflt).time -
        (([⟨0, 0, 0⟩, ⟨1000, 0, 180⟩] : List TrackPoint).getD (0 - 10)
          TrackPoint.dflt).time ≠ 0 := by
      norm_num [List.getD]
    rw [extractSpeed_val [⟨0, 0, 0⟩, ⟨1000, 0, 180⟩] 0 (by norm_num) hdt]
    norm_num [List.getD, pairwiseDistance]
  · have hD := distance_antipodal_pos
    simp only [specSpeedAt]
    norm_num [List.getD, pairwiseDistance]
    intro h
    rw [h] at hD
    simp at hD

/-- Claim C4, counterexample: on the three-point track with identical
timestamps `[(0ms, 0, 0), (0ms, 0, 180), (0ms, 0, 180)]` the first speed
value is `Infinity` — positive window distance divided by a zero elapsed
time.  `Number.isNaN(Infinity)` is `false`, so the previous speed is NOT
substituted and the non-finite value is pushed into the series. -/
theorem C4_counterexample :
    (extractSpeed [⟨0, 0, 0⟩, ⟨0, 0, 180⟩, ⟨0, 0, 180⟩]).get? 0 =
      some JSNum.inf := by
  have hD := distance_antipodal_pos
  have hs : speedAt [⟨0, 0, 0⟩, ⟨0, 0, 180⟩, ⟨0, 0, 180⟩] 0 = JSNum.inf := by
    simp only [speedAt]
    norm_num [List.getD, pairwiseDistance, hD, hD.ne']
  have hnn : (speedAt [⟨0, 0, 0⟩, ⟨0, 0, 180⟩, ⟨0, 0, 180⟩] 0).isNaN =
      false := by rw [hs]; rfl
  rw [extractSpeed, extractSpeedGo_get? _ _ 0 0 (JSNum.fin 1)
    (List.get?_range (by norm_num)) hnn, hs]

/-- Claim C4, amended: for every track whose latitudes lie in [-90, 90]
(the domain on which the JavaScript haversine computes real values) and
whose timestamps are strictly increasing, every value of `extractSpeed` is
finite and non-negative (the seed 1 km/h covers the one-point track whose
single window is empty, a 0/0 NaN); and every fully stationary such track
with at least two points yields the all-zero speed series.  Without
strictly increasing timestamps the guarantee fails: a zero elapsed time
with positive window distance yields Infinity, which `Number.isNaN` does
not catch (see the counterexample). -/
theorem C4_theorem (track : List TrackPoint)
    (hlat : ∀ p ∈ track, -90 ≤ p.lat ∧ p.lat ≤ 90)
    (ht : track.Pairwise (fun p q => p.time < q.time)) :
    (∀ s ∈ extractSpeed track, ∃ x, s = JSNum.fin x ∧ 0 ≤ x) ∧
      (2 ≤ track.length →
        (∀ p ∈ track, ∀ q ∈ track, p.lat = q.lat ∧ p.lon = q.lon) →
        ∀ s ∈ extractSpeed track, s = JSNum.fin 0) := by
  have hfin : ∀ i : ℕ, i < track.length → 2 ≤ track.length →
      speedAt track i = JSNum.fin
        (pairwiseDistance ((track.drop (i - 10)).take
            (min (i - 10 + 10) (track.length - 1) - (i - 10))) /
          ((track.getD (min (i - 10 + 10) (track.length - 1))
              TrackPoint.dflt).time -
            (track.getD (i - 10) TrackPoint.dflt).time) * 3600) ∧
        0 < (track.getD (min (i - 10 + 10) (track.length - 1))
            TrackPoint.dflt).time -
          (track.getD (i - 10) TrackPoint.dflt).time := by
    intro i hi h2
    have hwin : i - 10 < min (i - 10 + 10) (track.length - 1) := by omega
    have hmaxlt : min (i - 10 + 10) (track.length - 1) < track.length := by
      omega
    have hdtpos : 0 < (track.getD (min (i - 10 + 10) (track.length - 1))
        TrackPoint.dflt).time - (track.getD (i - 10) TrackPoint.dflt).time := by
      have := strict_times_getD track ht (i - 10)
        (min (i - 10 + 10) (track.length - 1)) hwin hmaxlt
      linarith
    refine ⟨?_, hdtpos⟩
    simp only [speedAt]
    rw [if_neg (ne_of_gt hdtpos)]
  constructor
  · apply extractSpeedGo_all track (fun s => ∃ x, s = JSNum.fin x ∧ 0 ≤ x)
      (List.range track.length) (JSNum.fin 1) ⟨1, rfl, by norm_num⟩
    intro i hil
    have hi : i < track.length := List.mem_range.mp hil
    by_cases h2 : 2 ≤ track.length
    · right
      obtain ⟨hs, hdtpos⟩ := hfin i hi h2
      refine ⟨_, hs, ?_⟩
      exact mul_nonneg (div_nonneg (pairwiseDistance_nonneg _)
        (le_of_lt hdtpos)) (by norm_num)
    · left
      apply speedAt_nan_of_trivial_window
      omega
  · intro h2 hstat
    apply extractSpeedGo_all2 track (fun s => s = JSNum.fin 0)
      (List.range track.length) (JSNum.fin 1)
    intro i hil
    have hi : i < track.length := List.mem_range.mp hil
    obtain ⟨hs, hdtpos⟩ := hfin i hi h2
    have hdist : pairwiseDistance ((track.drop (i - 10)).take
        (min (i - 10 + 10) (track.length - 1) - (i - 10))) = 0 := by
      apply pairwiseDistance_zero
      intro p hp q hq
      have hp2 : p ∈ track :=
        List.drop_subset _ _ (List.take_subset _ _ hp)
      have hq2 : q ∈ track :=
        List.drop_subset _ _ (List.take_subset _ _ hq)
      exact hstat p hp2 q hq2
    rw [hdist] at hs
    rw [zero_div, zero_mul] at hs
    exact ⟨by rw [hs]; rfl, hs⟩

/-- Witness for `C4_theorem`: the stationary two-point track
`[(0ms, 0, 0), (1000ms, 0, 0)]`. -/
theorem C4_witness :
    ((∀ p ∈ ([⟨0, 0, 0⟩, ⟨1000, 0, 0⟩] : List TrackPoint),
        -90 ≤ p.lat ∧ p.lat ≤ 90) ∧
      ([⟨0, 0, 0⟩, ⟨1000, 0, 0⟩] : List TrackPoint).Pairwise
        (fun p q => p.time < q.time)) ∧
    ((∀ s ∈ extractSpeed [⟨0, 0, 0⟩, ⟨1000, 0, 0⟩],
        ∃ x, s = JSNum.fin x ∧ 0 ≤ x) ∧
      (2 ≤ ([⟨0, 0, 0⟩, ⟨1000, 0, 0⟩] : List TrackPoint).length →
        (∀ p ∈ ([⟨0, 0, 0⟩, ⟨1000, 0, 0⟩] : List TrackPoint),
          ∀ q ∈ ([⟨0, 0, 0⟩, ⟨1000, 0, 0⟩] : List TrackPoint),
          p.lat = q.lat ∧ p.lon = q.lon) →
        ∀ s ∈ extractSpeed [⟨0, 0, 0⟩, ⟨1000, 0, 0⟩], s = JSNum.fin 0)) := by
  have hlat : ∀ p ∈ ([⟨0, 0, 0⟩, ⟨1000, 0, 0⟩] : List TrackPoint),
      -90 ≤ p.lat ∧ p.lat ≤ 90 := by
    intro p hp
    simp only [List.mem_cons, List.mem_singleton] at hp
    rcases hp with h | h | h
    · subst h; norm_num
    · subst h; norm_num
    · simp at h
  have ht : ([⟨0, 0, 0⟩, ⟨1000, 0, 0⟩] : List TrackPoint).Pairwise
      (fun p q => p.time < q.time) := by
    norm_num [List.pairwise_cons]
  exact ⟨⟨hlat, ht⟩, C4_theorem [⟨0, 0, 0⟩, ⟨1000, 0, 0⟩] hlat ht⟩

/-- The `cornersCoords` record handed to `drawTrackOnMap`. -/
structure Corners where
  top_left : LatLon
  top_right : LatLon
  bottom_right : LatLon
  bottom_left : LatLon

/-- The integer pixel box returned by `extractBounds` in `mapdump.js`. -/
structure Bounds where
  minX : ℤ
  maxX : ℤ
  minY : ℤ
  maxY : ℤ

/-- Source: `extractBounds(image, cornersCoordinates, trackPoints)` —
start from the image rectangle, extend by every projected track point,
then floor/ceil.  (The four accumulators are independent, so the single
JavaScript loop is four folds.) -/
noncomputable def extractBounds (w h : ℕ) (corners : Corners)
    (track : List TrackPoint) : Bounds :=
  let pts := track.map (fun p =>
    cornerCalTransform w h corners.top_left corners.top_right
      corners.bottom_right corners.bottom_left ⟨p.lat, p.lon⟩)
  let minX := pts.foldl (fun acc pt => if pt.1 < acc then pt.1 else acc) 0
  let maxX := pts.foldl (fun acc pt => if pt.1 > acc then pt.1 else acc) (w : ℝ)
  let minY := pts.foldl (fun acc pt => if pt.2 < acc then pt.2 else acc) 0
  let maxY := pts.foldl (fun acc pt => if pt.2 > acc then pt.2 else acc) (h : ℝ)
  ⟨⌊minX⌋, ⌈maxX⌉, ⌊minY⌋, ⌈maxY⌉⟩

/-- Source: the dimensions of the canvas returned by `scaleImage(image,
ratio)`: `floor(width * ratio) × floor(height * ratio)`. -/
noncomputable def scaleImageDims (w h : ℕ) (r : ℝ) : ℕ × ℕ :=
  ((⌊(w : ℝ) * r⌋).toNat, (⌊(h : ℝ) * r⌋).toNat)

/-- The (buggy) segment length computed in the colored-path loop of
`drawTrackOnMap`: `distanceX = pointEnd.x - pointStart.x;`
`distanceY = pointEnd.x - pointStart.x` — the second line also reads `.x`
— and `d = sqrt(distanceX ** 2 + distanceY ** 2)`. -/
noncomputable def coloredSegmentD (pointStart pointEnd : ℝ × ℝ) : ℝ :=
  Real.sqrt ((pointEnd.1 - pointStart.1) ^ 2 + (pointEnd.1 - pointStart.1) ^ 2)

/-- The colored-path loop (`for (let j = 1; ...)`): a segment is skipped
when `d < 1` (and then `pointStart` does not advance); otherwise it is
drawn and `pointStart = pointEnd`.  Returns the number of drawn
segments. -/
noncomputable def segmentsLoop : List (ℝ × ℝ) → (ℝ × ℝ) → ℕ
  | [], _ => 0
  | pointEnd :: rest, pointStart =>
      if coloredSegmentD pointStart pointEnd < 1 then
        segmentsLoop rest pointStart
      else 1 + segmentsLoop rest pointEnd

/-- The direction-tick loop over `j = 1 .. length-2`, drawing a tick when
at least 10 seconds (`10e3` ms) elapsed since the previous tick time. -/
noncomputable def ticksGo (track : List TrackPoint) :
    List ℕ → ℝ → ℕ
  | [], _ => 0
  | j :: rest, prevT =>
      if prevT + 10000 ≤ (track.getD j TrackPoint.dflt).time then
        1 + ticksGo track rest (track.getD j TrackPoint.dflt).time
      else ticksGo track rest prevT

/-- Number of direction ticks drawn by `drawTrackOnMap`: guarded by
`trackPoints.length && trackPoints[0].time` (a first timestamp of `0` is
falsy and disables ticks), `prevT` seeded to `t0 - 20e3`. -/
noncomputable def ticksDrawnCount (track : List TrackPoint) : ℕ :=
  match track with
  | [] => 0
  | p0 :: _ =>
      if p0.time = 0 then 0
      else ticksGo track (List.range' 1 (track.length - 2)) (p0.time - 20000)

/-- Shape of the canvas returned by (the model of) `drawTrackOnMap`. -/
structure RenderResult where
  width : ℕ
  height : ℕ
  headerIncluded : Bool
  segmentsDrawn : ℕ
  ticksDrawn : ℕ

lemma extractBounds_nil (w h : ℕ) (corners : Corners) :
    extractBounds w h corners [] = ⟨0, w, 0, h⟩ := by
  simp [extractBounds]

lemma b2p_allzero : basisToPoints 0 0 0 0 0 0 0 0 = Mat3.zero := by
  ext <;> norm_num [basisToPoints, basisBase, basisWeights, adj, multmv,
    multmm, Mat3.zero]

lemma multmm_zero_left (m : Mat3) : multmm Mat3.zero m = Mat3.zero := by
  ext <;> simp [multmm, Mat3.zero]

lemma cornerCalTransform_degenerate_size (tl tr br bl c : LatLon) :
    cornerCalTransform 0 0 tl tr br bl c = (0, 0) := by
  simp only [cornerCalTransform, cornerCalMatrix, general2DProjection,
    project]
  rw [b2p_allzero, multmm_zero_left, multmv_zero]
  simp

lemma extractBounds_zero_dims (corners : Corners) (track : List TrackPoint) :
    extractBounds 0 0 corners track = ⟨0, 0, 0, 0⟩ := by
  have hpt : track.map (fun p =>
      cornerCalTransform 0 0 corners.top_left corners.top_right
        corners.bottom_right corners.bottom_left ⟨p.lat, p.lon⟩) =
      track.map (fun _ => ((0 : ℝ), (0 : ℝ))) := by
    apply List.map_congr_left
    intro p _
    exact cornerCalTransform_degenerate_size _ _ _ _ _
  have hfold0 : ∀ (l : List TrackPoint) (f : (ℝ × ℝ) → ℝ), f 0 = 0 →
      (l.map (fun _ => ((0 : ℝ), (0 : ℝ)))).foldl
        (fun acc pt => if f pt < acc then f pt else acc) 0 = 0 := by
    intro l f hf
    induction l with
    | nil => simp
    | cons p rest ih => simpa [hf] using ih
  have hfold1 : ∀ (l : List TrackPoint) (f : (ℝ × ℝ) → ℝ), f 0 = 0 →
      (l.map (fun _ => ((0 : ℝ), (0 : ℝ)))).foldl
        (fun acc pt => if f pt > acc then f pt else acc) 0 = 0 := by
    intro l f hf
    induction l with
    | nil => simp
    | cons p rest ih => simpa [hf] using ih
  simp only [extractBounds, hpt, Nat.cast_zero]
  rw [hfold0 track (fun pt => pt.1) rfl, hfold1 track (fun pt => pt.1) rfl,
    hfold0 track (fun pt => pt.2) rfl, hfold1 track (fun pt => pt.2) rfl]
  norm_num

lemma scale_measure_lt (w h : ℕ) (mH mW : ℤ)
    (hcond : 32767 < mH ∨ 32767 < mW) (hz : 0 < w + h) :
    (⌊(w : ℝ) * (32767 / ((max mH mW : ℤ) : ℝ))⌋).toNat +
      (⌊(h : ℝ) * (32767 / ((max mH mW : ℤ) : ℝ))⌋).toNat < w + h := by
  have hM : (32767 : ℤ) < max mH mW := by omega
  have hMR : (32767 : ℝ) < ((max mH mW : ℤ) : ℝ) := by exact_mod_cast hM
  have h0 : (0 : ℝ) < ((max mH mW : ℤ) : ℝ) := by linarith
  set r : ℝ := 32767 / ((max mH mW : ℤ) : ℝ) with hr
  have hr0 : 0 < r := by positivity
  have hr1 : r < 1 := (div_lt_one h0).mpr hMR
  have hle : ∀ n : ℕ, ⌊(n : ℝ) * r⌋ ≤ (n : ℤ) := by
    intro n
    have : (n : ℝ) * r ≤ n := by nlinarith [(Nat.cast_nonneg n : (0 : ℝ) ≤ (n : ℝ))]
    calc ⌊(n : ℝ) * r⌋ ≤ ⌊(n : ℝ)⌋ := Int.floor_le_floor this
      _ = (n : ℤ) := Int.floor_natCast n
  have hlt : ∀ n : ℕ, 0 < n → ⌊(n : ℝ) * r⌋ < (n : ℤ) := by
    intro n hn
    apply Int.floor_lt.mpr
    have hnR : (0 : ℝ) < n := by exact_mod_cast hn
    push_cast
    nlinarith
  have hlew := hle w
  have hleh := hle h
  rcases Nat.eq_zero_or_pos w with hw | hw
  · have hh : 0 < h := by omega
    have := hlt h hh
    subst hw
    omega
  · have := hlt w hw
    omega

/-- The `mWidth` of `drawTrackOnMap`: `bounds.maxX - bounds.minX`. -/
noncomputable def mWidthOf (w h : ℕ) (corners : Corners)
    (track : List TrackPoint) : ℤ :=
  (extractBounds w h corners track).maxX - (extractBounds w h corners track).minX

/-- The `mHeight` of `drawTrackOnMap`: `bounds.maxY - bounds.minY`. -/
noncomputable def mHeightOf (w h : ℕ) (corners : Corners)
    (track : List TrackPoint) : ℤ :=
  (extractBounds w h corners track).maxY - (extractBounds w h corners track).minY

/-- The ratio `MAX / Math.max(mHeight, mWidth)` of the downscale retry. -/
noncomputable def retryRatio (w h : ℕ) (corners : Corners)
    (track : List TrackPoint) : ℝ :=
  32767 / ((max (mHeightOf w h corners track) (mWidthOf w h corners track) : ℤ) : ℝ)

/-- Number of colored-path segments drawn for a track: project all points,
then run the segment loop from the first projected point. -/
noncomputable def segmentsDrawnFor (w h : ℕ) (corners : Corners)
    (track : List TrackPoint) : ℕ :=
  match track.map (fun p =>
    cornerCalTransform w h corners.top_left corners.top_right
      corners.bottom_right corners.bottom_left ⟨p.lat, p.lon⟩) with
  | [] => 0
  | q0 :: qrest => segmentsLoop qrest q0

/-- Model of `drawTrackOnMap` in `mapdump.js`, tracking the data that the
claims are about: the final canvas dimensions, whether the header band was
added (70 px on top of the bounds height), the number of colored-path
segments and direction ticks drawn, and the thrown `TypeError` when the
colored-path start point `trackPoints[0]` is read from an empty track while
route rendering is enabled.  The oversized-canvas downscale retry is the
recursion of the source, re-entered with the floor-scaled image dimensions
of `scaleImage`. -/
noncomputable def drawTrackOnMapModel (w h : ℕ) (corners : Corners)
    (track : List TrackPoint) (includeHeader includeTrack : Bool) :
    Except String RenderResult :=
  if hcond : 32767 < mHeightOf w h corners track ∨
      32767 < mWidthOf w h corners track then
    drawTrackOnMapModel
      (scaleImageDims w h (retryRatio w h corners track)).1
      (scaleImageDims w h (retryRatio w h corners track)).2
      corners track includeHeader includeTrack
  else
    if includeTrack then
      match track with
      | [] => Except.error "TypeError: trackPoints[0] is undefined"
      | p0 :: rest =>
          if includeHeader then
            Except.ok ⟨(mWidthOf w h corners (p0 :: rest)).toNat,
              (mHeightOf w h corners (p0 :: rest)).toNat + 70, true,
              segmentsDrawnFor w h corners (p0 :: rest),
              ticksDrawnCount (p0 :: rest)⟩
          else
            Except.ok ⟨(mWidthOf w h corners (p0 :: rest)).toNat,
              (mHeightOf w h corners (p0 :: rest)).toNat, false,
              segmentsDrawnFor w h corners (p0 :: rest),
              ticksDrawnCount (p0 :: rest)⟩
    else
      if includeHeader then
        Except.ok ⟨(mWidthOf w h corners track).toNat,
          (mHeightOf w h corners track).toNat + 70, true, 0, 0⟩
      else
        Except.ok ⟨(mWidthOf w h corners track).toNat,
          (mHeightOf w h corners track).toNat, false, 0, 0⟩
termination_by w + h
decreasing_by
  rcases Nat.eq_zero_or_pos (w + h) with hz | hz
  · have hw : w = 0 := by omega
    have hh : h = 0 := by omega
    subst hw
    subst hh
    rw [mHeightOf, mWidthOf, extractBounds_zero_dims] at hcond
    simp at hcond
  · rw [scaleImageDims, retryRatio]
    exact scale_measure_lt w h _ _ hcond hz

lemma model_dims_ok : ∀ (w h : ℕ) (corners : Corners)
    (track : List TrackPoint) (ihh itt : Bool) (res : RenderResult),
    drawTrackOnMapModel w h corners track ihh itt = Except.ok res →
    res.width ≤ 32767 ∧ res.height ≤ 32767 + (if ihh then 70 else 0) := by
  intro w h corners track ihh itt
  induction w, h, corners, track, ihh, itt using drawTrackOnMapModel.induct with
  | case1 w h corners track ihh itt hcond ihrec =>
      intro res hres
      rw [drawTrackOnMapModel.eq_def] at hres
      rw [dif_pos hcond] at hres
      exact ihrec res hres
  | case2 w h corners ihh hcond =>
      intro res hres
      rw [drawTrackOnMapModel.eq_def] at hres
      rw [dif_neg (by assumption)] at hres
      simp at hres
  | case3 w h corners p0 tail hcond =>
      intro res hres
      rw [drawTrackOnMapModel.eq_def] at hres
      rw [dif_neg (by assumption)] at hres
      have hb : ¬(32767 < mHeightOf w h corners (p0 :: tail) ∨
          32767 < mWidthOf w h corners (p0 :: tail)) := by assumption
      simp only [not_or, not_lt] at hb
      simp at hres
      rw [← hres]
      simp
      omega
  | case4 w h corners ihh p0 tail h1 h2 =>
      intro res hres
      rw [drawTrackOnMapModel.eq_def] at hres
      rw [dif_neg (by assumption)] at hres
      have hb : ¬(32767 < mHeightOf w h corners (p0 :: tail) ∨
          32767 < mWidthOf w h corners (p0 :: tail)) := by assumption
      simp only [not_or, not_lt] at hb
      cases ihh with
      | true => exact absurd rfl (by assumption)
      | false =>
          simp at hres
          rw [← hres]
          simp
          omega
  | case5 w h corners track itt h1 h2 =>
      intro res hres
      rw [drawTrackOnMapModel.eq_def] at hres
      rw [dif_neg (by assumption)] at hres
      have hb : ¬(32767 < mHeightOf w h corners track ∨
          32767 < mWidthOf w h corners track) := by assumption
      simp only [not_or, not_lt] at hb
      cases itt with
      | true => exact absurd rfl (by assumption)
      | false =>
          simp at hres
          rw [← hres]
          simp
          omega
  | case6 w h corners track ihh itt h1 h2 h3 =>
      intro res hres
      rw [drawTrackOnMapModel.eq_def] at hres
      rw [dif_neg (by assumption)] at hres
      have hb : ¬(32767 < mHeightOf w h corners track ∨
          32767 < mWidthOf w h corners track) := by assumption
      simp only [not_or, not_lt] at hb
      cases itt with
      | true => exact absurd rfl (by assumption)
      | false =>
          cases ihh with
          | true => exact absurd rfl (by assumption)
          | false =>
              simp at hres
              rw [← hres]
              simp
              omega

lemma model_error_iff : ∀ (w h : ℕ) (corners : Corners)
    (track : List TrackPoint) (ihh itt : Bool),
    drawTrackOnMapModel w h corners track ihh itt =
        Except.error "TypeError: trackPoints[0] is undefined" ↔
      (itt = true ∧ track = []) := by
  intro w h corners track ihh itt
  induction w, h, corners, track, ihh, itt using drawTrackOnMapModel.induct with
  | case1 w h corners track ihh itt hcond ihrec =>
      rw [drawTrackOnMapModel.eq_def, dif_pos hcond]
      exact ihrec
  | case2 w h corners ihh hcond =>
      rw [drawTrackOnMapModel.eq_def, dif_neg (by assumption)]
      simp
  | case3 w h corners p0 tail hcond =>
      rw [drawTrackOnMapModel.eq_def, dif_neg (by assumption)]
      simp
  | case4 w h corners ihh p0 tail h1 h2 =>
      rw [drawTrackOnMapModel.eq_def, dif_neg (by assumption)]
      cases ihh with
      | true => exact absurd rfl (by assumption)
      | false => simp
  | case5 w h corners track itt h1 h2 =>
      rw [drawTrackOnMapModel.eq_def, dif_neg (by assumption)]
      cases itt with
      | true => exact absurd rfl (by assumption)
      | false => simp
  | case6 w h corners track ihh itt h1 h2 h3 =>
      rw [drawTrackOnMapModel.eq_def, dif_neg (by assumption)]
      cases itt with
      | true => exact absurd rfl (by assumption)
      | false =>
          cases ihh with
          | true => exact absurd rfl (by assumption)
          | false => simp

lemma model_short_ok : ∀ (w h : ℕ) (corners : Corners)
    (track : List TrackPoint) (ihh itt : Bool), track.length ≤ 1 →
    ∀ res, drawTrackOnMapModel w h corners track ihh itt = Except.ok res →
      res.segmentsDrawn = 0 ∧ res.ticksDrawn = 0 ∧
        res.headerIncluded = ihh := by
  intro w h corners track ihh itt
  induction w, h, corners, track, ihh, itt using drawTrackOnMapModel.induct with
  | case1 w h corners track ihh itt hcond ihrec =>
      intro hlen res hres
      rw [drawTrackOnMapModel.eq_def, dif_pos hcond] at hres
      exact ihrec hlen res hres
  | case2 w h corners ihh hcond =>
      intro hlen res hres
      rw [drawTrackOnMapModel.eq_def, dif_neg (by assumption)] at hres
      simp at hres
  | case3 w h corners p0 tail hcond =>
      intro hlen res hres
      have htail : tail = [] := by
        cases tail with
        | nil => rfl
        | cons q qs => simp at hlen
      subst htail
      rw [drawTrackOnMapModel.eq_def, dif_neg (by assumption)] at hres
      simp at hres
      rw [← hres]
      refine ⟨?_, ?_, rfl⟩
      · simp [segmentsDrawnFor, segmentsLoop]
      · simp [ticksDrawnCount, ticksGo]
  | case4 w h corners ihh p0 tail h1 h2 =>
      intro hlen res hres
      have htail : tail = [] := by
        cases tail with
        | nil => rfl
        | cons q qs => simp at hlen
      subst htail
      rw [drawTrackOnMapModel.eq_def, dif_neg (by assumption)] at hres
      cases ihh with
      | true => exact absurd rfl (by assumption)
      | false =>
          simp at hres
          rw [← hres]
          refine ⟨?_, ?_, rfl⟩
          · simp [segmentsDrawnFor, segmentsLoop]
          · simp [ticksDrawnCount, ticksGo]
  | case5 w h corners track itt h1 h2 =>
      intro hlen res hres
      rw [drawTrackOnMapModel.eq_def, dif_neg (by assumption)] at hres
      cases itt with
      | true => exact absurd rfl (by assumption)
      | false =>
          simp at hres
          rw [← hres]
          exact ⟨rfl, rfl, rfl⟩
  | case6 w h corners track ihh itt h1 h2 h3 =>
      intro hlen res hres
      rw [drawTrackOnMapModel.eq_def, dif_neg (by assumption)] at hres
      cases itt with
      | true => exact absurd rfl (by assumption)
      | false =>
          cases ihh with
          | true => exact absurd rfl (by assumption)
          | false =>
              simp at hres
              rw [← hres]
              exact ⟨rfl, rfl, rfl⟩

lemma mWidthOf_nil (w h : ℕ) (corners : Corners) :
    mWidthOf w h corners [] = w := by
  rw [mWidthOf, extractBounds_nil]
  simp

lemma mHeightOf_nil (w h : ℕ) (corners : Corners) :
    mHeightOf w h corners [] = h := by
  rw [mHeightOf, extractBounds_nil]
  simp

/-- Claim C7, amended: the model of `drawTrackOnMap` on a track with fewer
than 2 points throws (`TypeError`, reading `trackPoints[0].coordinates`)
exactly when route rendering is enabled and the track is empty; in every
other short-track case it renders successfully, with zero colored-path
segments, zero direction ticks, and the header band exactly when
requested. -/
theorem C7_theorem (w h : ℕ) (corners : Corners) (track : List TrackPoint)
    (ihh itt : Bool) (hlen : track.length ≤ 1) :
    (drawTrackOnMapModel w h corners track ihh itt =
        Except.error "TypeError: trackPoints[0] is undefined" ↔
      (itt = true ∧ track = [])) ∧
    (∀ res, drawTrackOnMapModel w h corners track ihh itt = Except.ok res →
      res.segmentsDrawn = 0 ∧ res.ticksDrawn = 0 ∧
        res.headerIncluded = ihh) :=
  ⟨model_error_iff w h corners track ihh itt,
    model_short_ok w h corners track ihh itt hlen⟩

/-- Claim C7, counterexample: with route rendering enabled (the default)
and an empty track, `drawTrackOnMap` does not render an image — it throws
reading `trackPoints[0]` in the colored-path pass. -/
theorem C7_counterexample :
    drawTrackOnMapModel 100 100 ⟨⟨60, 0⟩, ⟨60, 1⟩, ⟨0, 1⟩, ⟨0, 0⟩⟩ []
      false true = Except.error "TypeError: trackPoints[0] is undefined" := by
  have hc : ¬(32767 < mHeightOf 100 100 ⟨⟨60, 0⟩, ⟨60, 1⟩, ⟨0, 1⟩, ⟨0, 0⟩⟩ []
      ∨ 32767 < mWidthOf 100 100 ⟨⟨60, 0⟩, ⟨60, 1⟩, ⟨0, 1⟩, ⟨0, 0⟩⟩ []) := by
    rw [mHeightOf_nil, mWidthOf_nil]
    norm_num
  rw [drawTrackOnMapModel.eq_def, dif_neg hc]
  rfl

/-- Witness for `C7_theorem`: a one-point track with route rendering and
header enabled. -/
theorem C7_witness :
    ([⟨1000, 0, 0⟩] : List TrackPoint).length ≤ 1 ∧
    ((drawTrackOnMapModel 100 100 ⟨⟨60, 0⟩, ⟨60, 1⟩, ⟨0, 1⟩, ⟨0, 0⟩⟩
          [⟨1000, 0, 0⟩] true true =
        Except.error "TypeError: trackPoints[0] is undefined" ↔
      (true = true ∧ ([⟨1000, 0, 0⟩] : List TrackPoint) = [])) ∧
    (∀ res, drawTrackOnMapModel 100 100 ⟨⟨60, 0⟩, ⟨60, 1⟩, ⟨0, 1⟩, ⟨0, 0⟩⟩
          [⟨1000, 0, 0⟩] true true = Except.ok res →
      res.segmentsDrawn = 0 ∧ res.ticksDrawn = 0 ∧
        res.headerIncluded = true)) :=
  ⟨by norm_num, C7_theorem 100 100 ⟨⟨60, 0⟩, ⟨60, 1⟩, ⟨0, 1⟩, ⟨0, 0⟩⟩
    [⟨1000, 0, 0⟩] true true (by norm_num)⟩

/-- Claim C8: the segment-skip test computes BOTH difference components
from the `x` coordinates (`distanceY = pointEnd.x - pointStart.x`), so a
purely vertical projected segment of Euclidean length 100 px is measured
as length 0 and skipped, although the claim (and the spec) require every
segment of Euclidean length at least 1 px to be drawn. -/
theorem C8_theorem :
    coloredSegmentD (0, 0) (0, 100) < 1 ∧
      Real.sqrt (((0 : ℝ) - 0) ^ 2 + ((100 : ℝ) - 0) ^ 2) = 100 := by
  constructor
  · unfold coloredSegmentD
    norm_num
  · rw [show ((0 : ℝ) - 0) ^ 2 + ((100 : ℝ) - 0) ^ 2 = 100 ^ 2 by norm_num]
    exact Real.sqrt_sq (by norm_num)

lemma scaleImageDims_aspect (w h : ℕ) (r : ℝ) (hr : 0 ≤ r) :
    |((scaleImageDims w h r).1 : ℤ) * h - ((scaleImageDims w h r).2 : ℤ) * w|
      ≤ ((max w h : ℕ) : ℤ) := by
  simp only [scaleImageDims]
  have ha0 : 0 ≤ ⌊(w : ℝ) * r⌋ := Int.floor_nonneg.mpr (by positivity)
  have hb0 : 0 ≤ ⌊(h : ℝ) * r⌋ := Int.floor_nonneg.mpr (by positivity)
  have ha1 : ((⌊(w : ℝ) * r⌋ : ℤ) : ℝ) ≤ (w : ℝ) * r := Int.floor_le _
  have ha2 : (w : ℝ) * r < (⌊(w : ℝ) * r⌋ : ℤ) + 1 := Int.lt_floor_add_one _
  have hb1 : ((⌊(h : ℝ) * r⌋ : ℤ) : ℝ) ≤ (h : ℝ) * r := Int.floor_le _
  have hb2 : (h : ℝ) * r < (⌊(h : ℝ) * r⌋ : ℤ) + 1 := Int.lt_floor_add_one _
  rw [Int.toNat_of_nonneg ha0, Int.toNat_of_nonneg hb0]
  have hup : ⌊(w : ℝ) * r⌋ * h - ⌊(h : ℝ) * r⌋ * w ≤ w := by
    have hreal : ((⌊(w : ℝ) * r⌋ * h - ⌊(h : ℝ) * r⌋ * w : ℤ) : ℝ) ≤ w := by
      push_cast
      nlinarith [(Nat.cast_nonneg w : (0 : ℝ) ≤ (w : ℝ)),
        (Nat.cast_nonneg h : (0 : ℝ) ≤ (h : ℝ))]
    exact_mod_cast hreal
  have hlo : -(h : ℤ) ≤ ⌊(w : ℝ) * r⌋ * h - ⌊(h : ℝ) * r⌋ * w := by
    have hreal : (-(h : ℝ)) ≤ ((⌊(w : ℝ) * r⌋ * h - ⌊(h : ℝ) * r⌋ * w : ℤ) : ℝ) := by
      push_cast
      nlinarith [(Nat.cast_nonneg w : (0 : ℝ) ≤ (w : ℝ)),
        (Nat.cast_nonneg h : (0 : ℝ) ≤ (h : ℝ))]
    exact_mod_cast hreal
  rw [abs_le]
  constructor <;> [skip; skip] <;> omega

/-- Claim C5, amended, in three parts.  (1) Size cap on the bounds canvas:
every successful render has width at most 32767 and height at most 32767
plus the 70-px header band when the header is requested — with the header
the total can exceed 32767 (see the counterexample).  (2) Termination of
the downscale retry: whenever the retry fires, the scaled image dimensions
strictly shrink, which is the decreasing measure of the recursion.
(3) Aspect ratio: flooring both scaled dimensions keeps the cross products
within one rounding step, `|w'·h - h'·w| ≤ max(w, h)` (the claimed
"within 1 pixel" holds only relative to the larger dimension). -/
theorem C5_theorem :
    (∀ (w h : ℕ) (corners : Corners) (track : List TrackPoint)
        (ihh itt : Bool) (res : RenderResult),
        drawTrackOnMapModel w h corners track ihh itt = Except.ok res →
        res.width ≤ 32767 ∧ res.height ≤ 32767 + (if ihh then 70 else 0)) ∧
    (∀ (w h : ℕ) (mH mW : ℤ), (32767 < mH ∨ 32767 < mW) → 0 < w + h →
        (scaleImageDims w h (32767 / ((max mH mW : ℤ) : ℝ))).1 +
          (scaleImageDims w h (32767 / ((max mH mW : ℤ) : ℝ))).2 < w + h) ∧
    (∀ (w h : ℕ) (r : ℝ), 0 ≤ r →
        |((scaleImageDims w h r).1 : ℤ) * h - ((scaleImageDims w h r).2 : ℤ)
          * w| ≤ ((max w h : ℕ) : ℤ)) :=
  ⟨model_dims_ok,
    fun w h mH mW hc hz => scale_measure_lt w h mH mW hc hz,
    scaleImageDims_aspect⟩

lemma scaled81 : (scaleImageDims 100 40000 ((32767 : ℝ) / 40000)).1 = 81 := by
  simp only [scaleImageDims]
  push_cast
  have h : ⌊(100 : ℝ) * (32767 / 40000)⌋ = 81 := by
    rw [Int.floor_eq_iff]
    constructor <;> norm_num
  rw [h]
  rfl

lemma scaled32767 :
    (scaleImageDims 100 40000 ((32767 : ℝ) / 40000)).2 = 32767 := by
  simp only [scaleImageDims]
  push_cast
  have h : ⌊(40000 : ℝ) * (32767 / 40000)⌋ = 32767 := by
    rw [show (40000 : ℝ) * (32767 / 40000) = 32767 by norm_num]
    rw [Int.floor_eq_iff]
    constructor <;> norm_num
  rw [h]
  rfl

/-- Claim C5, counterexample: a 100×40000 image (projected render bounds
40000 px high, beyond the 32767 limit) with an empty track and the header
requested is downscaled once to 81×32767 — and then the header band is
prepended, so the final rendered image is 81×32837, with height strictly
greater than 32767, contradicting the claimed cap on the final image. -/
theorem C5_counterexample :
    32767 < mHeightOf 100 40000 ⟨⟨60, 0⟩, ⟨60, 1⟩, ⟨0, 1⟩, ⟨0, 0⟩⟩ [] ∧
      drawTrackOnMapModel 100 40000 ⟨⟨60, 0⟩, ⟨60, 1⟩, ⟨0, 1⟩, ⟨0, 0⟩⟩ []
        true false = Except.ok ⟨81, 32837, true, 0, 0⟩ ∧
      32767 < 32837 := by
  have e1 : mHeightOf 100 40000 ⟨⟨60, 0⟩, ⟨60, 1⟩, ⟨0, 1⟩, ⟨0, 0⟩⟩ [] =
      40000 := mHeightOf_nil 100 40000 _
  have e2 : mWidthOf 100 40000 ⟨⟨60, 0⟩, ⟨60, 1⟩, ⟨0, 1⟩, ⟨0, 0⟩⟩ [] =
      100 := mWidthOf_nil 100 40000 _
  refine ⟨by rw [e1]; norm_num, ?_, by norm_num⟩
  have er : retryRatio 100 40000 ⟨⟨60, 0⟩, ⟨60, 1⟩, ⟨0, 1⟩, ⟨0, 0⟩⟩ [] =
      (32767 : ℝ) / 40000 := by
    rw [retryRatio, e1, e2]
    norm_num
  rw [drawTrackOnMapModel.eq_def, dif_pos (by rw [e1, e2]; norm_num)]
  rw [er, scaled81, scaled32767]
  have f1 : mHeightOf 81 32767 ⟨⟨60, 0⟩, ⟨60, 1⟩, ⟨0, 1⟩, ⟨0, 0⟩⟩ [] =
      32767 := mHeightOf_nil 81 32767 _
  have f2 : mWidthOf 81 32767 ⟨⟨60, 0⟩, ⟨60, 1⟩, ⟨0, 1⟩, ⟨0, 0⟩⟩ [] =
      81 := mWidthOf_nil 81 32767 _
  rw [drawTrackOnMapModel.eq_def, dif_neg (by rw [f1, f2]; norm_num)]
  simp [f1, f2]

lemma model_small_run :
    drawTrackOnMapModel 100 100 ⟨⟨60, 0⟩, ⟨60, 1⟩, ⟨0, 1⟩, ⟨0, 0⟩⟩ []
      false false = Except.ok ⟨100, 100, false, 0, 0⟩ := by
  have f1 : mHeightOf 100 100 ⟨⟨60, 0⟩, ⟨60, 1⟩, ⟨0, 1⟩, ⟨0, 0⟩⟩ [] = 100 :=
    mHeightOf_nil 100 100 _
  have f2 : mWidthOf 100 100 ⟨⟨60, 0⟩, ⟨60, 1⟩, ⟨0, 1⟩, ⟨0, 0⟩⟩ [] = 100 :=
    mWidthOf_nil 100 100 _
  rw [drawTrackOnMapModel.eq_def, dif_neg (by rw [f1, f2]; norm_num)]
  simp [f1, f2]

/-- Witness for `C5_theorem`: each conjunct applied at a concrete input
with its hypotheses discharged. -/
theorem C5_witness :
    (drawTrackOnMapModel 100 100 ⟨⟨60, 0⟩, ⟨60, 1⟩, ⟨0, 1⟩, ⟨0, 0⟩⟩ []
        false false = Except.ok ⟨100, 100, false, 0, 0⟩ ∧
      (100 : ℕ) ≤ 32767 ∧
      (⟨100, 100, false, 0, 0⟩ : RenderResult).height ≤ 32767 +
        (if false then 70 else 0)) ∧
    ((32767 < (40000 : ℤ) ∨ 32767 < (100 : ℤ)) ∧ 0 < 100 + 40000 ∧
      (scaleImageDims 100 40000
          (32767 / ((max (40000 : ℤ) (100 : ℤ) : ℤ) : ℝ))).1 +
        (scaleImageDims 100 40000
          (32767 / ((max (40000 : ℤ) (100 : ℤ) : ℤ) : ℝ))).2 <
        100 + 40000) ∧
    ((0 : ℝ) ≤ 32767 / 40000 ∧
      |((scaleImageDims 100 40000 ((32767 : ℝ) / 40000)).1 : ℤ) * 40000 -
        ((scaleImageDims 100 40000 ((32767 : ℝ) / 40000)).2 : ℤ) * 100| ≤
        ((max 100 40000 : ℕ) : ℤ)) := by
  refine ⟨⟨model_small_run, ?_, ?_⟩,
    ⟨by norm_num, by norm_num,
      C5_theorem.2.1 100 40000 40000 100 (by norm_num) (by norm_num)⟩,
    ⟨by norm_num, C5_theorem.2.2 100 40000 ((32767 : ℝ) / 40000)
      (by norm_num)⟩⟩
  · exact (C5_theorem.1 100 100 ⟨⟨60, 0⟩, ⟨60, 1⟩, ⟨0, 1⟩, ⟨0, 0⟩⟩ []
      false false ⟨100, 100, false, 0, 0⟩ model_small_run).1
  · exact (C5_theorem.1 100 100 ⟨⟨60, 0⟩, ⟨60, 1⟩, ⟨0, 1⟩, ⟨0, 0⟩⟩ []
      false false ⟨100, 100, false, 0, 0⟩ model_small_run).2

/-- Decimal digit test (`\d` of the regexes in `map_edit.js`). -/
def isDigit (c : Char) : Bool := decide ('0' ≤ c ∧ c ≤ '9')

/-- The number atom `[-]?\d+(\.\d+)?` shared by the filename regex of
`extractCornersCoordsFromFilename` and the calibration-string regex of
`isValidCalibString`: optional minus sign, one or more digits, optionally a
dot followed by one or more digits — matching the WHOLE list. -/
def numOK (f : List Char) : Bool :=
  let g := if f.head? = some '-' then f.tail else f
  let ds := g.takeWhile isDigit
  let rest := g.dropWhile isDigit
  !ds.isEmpty &&
    (rest.isEmpty ||
      (decide (rest.head? = some '.') && !rest.tail.isEmpty &&
        rest.tail.all isDigit))

/-- The extension alternation `(gif|png|jpg|jpeg|webp)` (no ignore-case
flag: lowercase only), matching the whole list. -/
def extOK (e : List Char) : Bool :=
  decide (e = ['g', 'i', 'f'] ∨ e = ['p', 'n', 'g'] ∨ e = ['j', 'p', 'g'] ∨
    e = ['j', 'p', 'e', 'g'] ∨ e = ['w', 'e', 'b', 'p'])

/-- Character distinct from the underscore separator. -/
def notUnd (c : Char) : Bool := decide (c ≠ '_')

/-- The run of non-underscore characters that an `_num` block of the regex
must consume entirely (the atom cannot match `_` and whatever follows the
atom in the regex starts with `_`, so backtracking cannot split a run). -/
def blockContent (rest : List Char) : List Char := rest.takeWhile notUnd

/-- The final `_\\.(gif|png|jpg|jpeg|webp)$` part of the filename regex:
an underscore, a dot, then a recognized extension running to the end. -/
def endCheck (l : List Char) : Bool :=
  if l.head? = some '_' ∧ l.tail.head? = some '.' then extOK l.tail.tail
  else false

/-- Matcher for `(_[-]?\\d+(\\.\\d+)?){n}_\\.(gif|png|jpg|jpeg|webp)$` against
an entire suffix: consume `n` underscore-number blocks (each block must
cover the whole run up to the next underscore), then the final
`_.extension` to the end of the string. -/
def blocksCheck : ℕ → List Char → Bool
  | 0, l => endCheck l
  | n + 1, l =>
      if l.head? = some '_' then
        numOK (blockContent l.tail) &&
          blocksCheck n (l.tail.drop (blockContent l.tail).length)
      else false

/-- The filename regex of `extractCornersCoordsFromFilename` matched at
one start position (8 blocks, then `_.` and the extension, anchored at the
string end). -/
def matchesFrom (l : List Char) : Bool := blocksCheck 8 l

/-- Source: `extractCornersCoordsFromFilename(filename)` in `map_edit.js`:
`filename.match(re)` finds the leftmost start position of a match (`none`
models the `false` return); `found[0]` is the suffix from there; it is
split on `_`, the last field (`.extension`) is popped, the leading empty
field is shifted, and the 8 number fields are joined with commas. -/
def extractCornersCoordsFromFilename (s : List Char) : Option (List Char) :=
  match (List.range (s.length + 1)).find? (fun i => matchesFrom (s.drop i)) with
  | none => none
  | some i =>
      some (List.intercalate [','] (((s.drop i).splitOn '_').dropLast.drop 1))

/-- Source: `isValidCalibString(s)` in `map_edit.js`: the regex
`^[-]?\d+(\.\d+)?(,[-]?\d+(\.\d+)?){7}$` holds exactly when the string
splits on commas into 8 fields each matching the number atom (the atom
cannot contain a comma). -/
def isValidCalibString (s : List Char) : Bool :=
  decide ((s.splitOn ',').length = 8) && (s.splitOn ',').all numOK

lemma splitOn_cons_self (c : Char) (xs : List Char) :
    (c :: xs).splitOn c = [] :: xs.splitOn c := by
  have h := List.splitOnP_first (· == c) ([] : List Char)
    (by simp) c (by simp) xs
  simpa [List.splitOn] using h

lemma splitOn_single (c : Char) (f : List Char) (hf : c ∉ f) :
    f.splitOn c = [f] := by
  apply List.splitOnP_eq_single
  intro x hx
  simp only [beq_iff_eq]
  intro h
  exact hf (h ▸ hx)

lemma splitOn_append (c : Char) (f ys : List Char) (hf : c ∉ f) :
    (f ++ c :: ys).splitOn c = f :: ys.splitOn c := by
  apply List.splitOnP_first
  · intro x hx
    simp only [beq_iff_eq]
    intro h
    exact hf (h ▸ hx)
  · simp

lemma blocksCheck_nil (n : ℕ) : blocksCheck n [] = false := by
  cases n <;> rfl

lemma extOK_no_und (e : List Char) (h : extOK e = true) : '_' ∉ ('.' :: e) := by
  rw [extOK, decide_eq_true_eq] at h
  rcases h with h | h | h | h | h <;> subst h <;> decide

lemma blockContent_no_und (rest : List Char) : '_' ∉ blockContent rest := by
  intro hmem
  have hp := List.mem_takeWhile_imp hmem
  simp [notUnd] at hp

lemma drop_takeWhile_length (p : Char → Bool) : ∀ (l : List Char),
    l.drop (l.takeWhile p).length = l.dropWhile p := by
  intro l
  induction l with
  | nil => rfl
  | cons a t ih =>
      by_cases h : p a
      · simp only [List.takeWhile_cons_of_pos h, List.dropWhile_cons_of_pos h,
          List.length_cons, List.drop_succ_cons]
        exact ih
      · simp [List.takeWhile_cons_of_neg h, List.dropWhile_cons_of_neg h]

lemma dropWhile_nil_or_head (p : Char → Bool) : ∀ (l : List Char),
    l.dropWhile p = [] ∨ ∃ c t, l.dropWhile p = c :: t ∧ p c = false := by
  intro l
  induction l with
  | nil => left; rfl
  | cons a t ih =>
      by_cases h : p a
      · rw [List.dropWhile_cons_of_pos h]
        exact ih
      · right
        exact ⟨a, t, List.dropWhile_cons_of_neg h, by simpa using h⟩

lemma blocksCheck_structure : ∀ (n : ℕ) (l : List Char),
    blocksCheck n l = true →
    ∃ (fields : List (List Char)) (e : List Char),
      fields.length = n ∧ (∀ f ∈ fields, numOK f = true) ∧
      (∀ f ∈ fields, '_' ∉ f) ∧
      l.splitOn '_' = [] :: (fields ++ [('.' :: e)]) ∧
      extOK e = true := by
  intro n
  induction n with
  | zero =>
      intro l h
      rw [blocksCheck, endCheck] at h
      by_cases hc : l.head? = some '_' ∧ l.tail.head? = some '.'
      swap
      · rw [if_neg hc] at h
        simp at h
      rw [if_pos hc] at h
      obtain ⟨h1, h2⟩ := hc
      match l, h1, h2 with
      | c1 :: c2 :: e, h1, h2 =>
          simp at h1 h2
          subst h1
          subst h2
          refine ⟨[], e, rfl, by simp, by simp, ?_, h⟩
          rw [splitOn_cons_self, splitOn_single '_' ('.' :: e)
            (extOK_no_und e h)]
          rfl
  | succ n ih =>
      intro l h
      rw [blocksCheck] at h
      by_cases hc : l.head? = some '_'
      swap
      · rw [if_neg hc] at h
        simp at h
      rw [if_pos hc] at h
      match l, hc with
      | c1 :: rest, hc =>
          simp at hc
          subst hc
          simp only [List.tail_cons] at h
          rw [Bool.and_eq_true] at h
          obtain ⟨hnum, hrec⟩ := h
          have hdrop : rest.drop (blockContent rest).length =
              rest.dropWhile notUnd := drop_takeWhile_length notUnd rest
          rw [hdrop] at hrec
          rcases dropWhile_nil_or_head notUnd rest with hcase | ⟨c, t, hcase, hcf⟩
          · rw [hcase, blocksCheck_nil] at hrec
            simp at hrec
          · have hcu : c = '_' := by
              simpa [notUnd] using hcf
            subst hcu
            rw [hcase] at hrec
            obtain ⟨fields, e, hlen, hnumf, hund, hsplit, hext⟩ := ih _ hrec
            have htsplit : t.splitOn '_' = fields ++ [('.' :: e)] := by
              rw [splitOn_cons_self] at hsplit
              exact List.tail_eq_of_cons_eq hsplit
            refine ⟨blockContent rest :: fields, e, by simp [hlen], ?_, ?_,
              ?_, hext⟩
            · intro f hf
              rcases List.mem_cons.mp hf with hfe | hfe
              · subst hfe; exact hnum
              · exact hnumf f hfe
            · intro f hf
              rcases List.mem_cons.mp hf with hfe | hfe
              · subst hfe; exact blockContent_no_und rest
              · exact hund f hfe
            · have hrest : blockContent rest ++ '_' :: t = rest := by
                rw [← hcase]
                exact List.takeWhile_append_dropWhile notUnd rest
              rw [splitOn_cons_self]
              conv_lhs => rw [← hrest]
              rw [splitOn_append '_' _ _ (blockContent_no_und rest), htsplit]
              simp

lemma digits_dot_chars (g : List Char)
    (h : (g.dropWhile isDigit).isEmpty = true ∨
      ((g.dropWhile isDigit).head? = some '.' ∧
        (g.dropWhile isDigit).tail.all isDigit = true)) :
    ∀ c ∈ g, c = '.' ∨ isDigit c = true := by
  intro c hc
  rw [← List.takeWhile_append_dropWhile (p := isDigit) (l := g)] at hc
  rcases List.mem_append.mp hc with hc2 | hc2
  · exact Or.inr (List.mem_takeWhile_imp hc2)
  · cases hd : g.dropWhile isDigit with
    | nil => rw [hd] at hc2; simp at hc2
    | cons a t =>
        rw [hd] at hc2 h
        rcases h with h | ⟨h1, h2⟩
        · simp at h
        · simp only [List.head?_cons, Option.some.injEq] at h1
          simp only [List.tail_cons] at h2
          rcases List.mem_cons.mp hc2 with rfl | hct
          · exact Or.inl h1
          · exact Or.inr (List.all_eq_true.mp h2 c hct)

lemma numOK_body_chars (g : List Char)
    (h : (!(g.takeWhile isDigit).isEmpty &&
      ((g.dropWhile isDigit).isEmpty ||
        (decide ((g.dropWhile isDigit).head? = some '.') &&
          !(g.dropWhile isDigit).tail.isEmpty &&
          (g.dropWhile isDigit).tail.all isDigit))) = true) :
    ∀ c ∈ g, c = '.' ∨ isDigit c = true := by
  rw [Bool.and_eq_true] at h
  rcases h with ⟨-, h2⟩
  rw [Bool.or_eq_true] at h2
  rcases h2 with h2 | h2
  · exact digits_dot_chars g (Or.inl h2)
  · rw [Bool.and_eq_true, Bool.and_eq_true] at h2
    exact digits_dot_chars g (Or.inr ⟨of_decide_eq_true h2.1.1, h2.2⟩)

lemma numOK_chars (f : List Char) (h : numOK f = true) :
    ∀ c ∈ f, c = '-' ∨ c = '.' ∨ isDigit c = true := by
  simp only [numOK] at h
  by_cases hm : f.head? = some '-'
  · rw [if_pos hm] at h
    cases f with
    | nil => simp at hm
    | cons a t =>
        simp only [List.head?_cons, Option.some.injEq] at hm
        subst hm
        simp only [List.tail_cons] at h
        intro c hc
        rcases List.mem_cons.mp hc with rfl | hct
        · exact Or.inl rfl
        · rcases numOK_body_chars t h c hct with k | k
          · exact Or.inr (Or.inl k)
          · exact Or.inr (Or.inr k)
  · rw [if_neg hm] at h
    intro c hc
    rcases numOK_body_chars f h c hc with k | k
    · exact Or.inr (Or.inl k)
    · exact Or.inr (Or.inr k)

lemma numOK_no_comma (f : List Char) (h : numOK f = true) : ',' ∉ f := by
  intro hc
  rcases numOK_chars f h ',' hc with h1 | h1 | h1
  · exact absurd h1 (by decide)
  · exact absurd h1 (by decide)
  · exact absurd h1 (by decide)

lemma extract_some_fields (s r : List Char)
    (h : extractCornersCoordsFromFilename s = some r) :
    ∃ fields : List (List Char), fields.length = 8 ∧
      (∀ f ∈ fields, numOK f = true) ∧ r = List.intercalate [','] fields := by
  rw [extractCornersCoordsFromFilename] at h
  cases hfind : (List.range (s.length + 1)).find?
      (fun i => matchesFrom (s.drop i)) with
  | none => rw [hfind] at h; exact absurd h (by simp)
  | some i =>
      rw [hfind] at h
      have hm : matchesFrom (s.drop i) = true := by
        have h2 := List.find?_some hfind
        simpa using h2
      obtain ⟨fields, e, hlen, hnum, hund, hsplit, hext⟩ :=
        blocksCheck_structure 8 (s.drop i) hm
      refine ⟨fields, hlen, hnum, ?_⟩
      have hdl : (((s.drop i).splitOn '_').dropLast).drop 1 = fields := by
        rw [hsplit, ← List.cons_append, List.dropLast_concat]
        rfl
      have h2 : List.intercalate [',']
          ((((s.drop i).splitOn '_').dropLast).drop 1) = r := Option.some.inj h
      rw [hdl] at h2
      exact h2.symm

lemma valid_of_fields (fields : List (List Char)) (hlen : fields.length = 8)
    (hnum : ∀ f ∈ fields, numOK f = true) :
    isValidCalibString (List.intercalate [','] fields) = true := by
  have hsp : (List.intercalate [','] fields).splitOn ',' = fields :=
    List.splitOn_intercalate fields ','
      (fun l hl => numOK_no_comma l (hnum l hl))
      (by intro h0; rw [h0] at hlen; simp at hlen)
  rw [isValidCalibString, hsp, Bool.and_eq_true]
  exact ⟨decide_eq_true (by rw [hlen]),
    List.all_eq_true.mpr (fun f hf => hnum f hf)⟩

lemma extract_none_of_nomatch (s : List Char)
    (h : ∀ i, matchesFrom (s.drop i) = false) :
    extractCornersCoordsFromFilename s = none := by
  have hf : (List.range (s.length + 1)).find?
      (fun i => matchesFrom (s.drop i)) = none := by
    rw [List.find?_eq_none]
    intro x hx
    simp [h x]
  rw [extractCornersCoordsFromFilename, hf]

/-- C9: whenever `extractCornersCoordsFromFilename` succeeds, the returned
string is exactly 8 number fields (the matched suffix of the actual
filename regex) joined by commas, and it is accepted by
`isValidCalibString`; and whenever the regex matches at no start position
of the filename, the function returns false (`none`). The claim's stated
convention (8 underscore-separated numbers directly before the dot and
extension) is NOT sufficient for success — the regex additionally requires
a trailing underscore before the dot; see the counterexample. -/
theorem C9_theorem :
    (∀ s r : List Char, extractCornersCoordsFromFilename s = some r →
      ∃ fields : List (List Char), fields.length = 8 ∧
        (∀ f ∈ fields, numOK f = true) ∧
        r = List.intercalate [','] fields ∧
        isValidCalibString r = true) ∧
    (∀ s : List Char, (∀ i, matchesFrom (s.drop i) = false) →
      extractCornersCoordsFromFilename s = none) := by
  constructor
  · intro s r h
    obtain ⟨fields, hlen, hnum, hr⟩ := extract_some_fields s r h
    exact ⟨fields, hlen, hnum, hr, by
      rw [hr]; exact valid_of_fields fields hlen hnum⟩
  · exact extract_none_of_nomatch

/-- The filename convention exactly as claim C9 words it: the name ends in
8 underscore-separated signed decimal numbers followed by a dot and a
recognized image extension (the claim's wording does not require an extra
underscore between the last number and the dot). -/
def specFilenameConvention (s : List Char) : Prop :=
  ∃ (p : List Char) (ns : List (List Char)) (e : List Char),
    ns.length = 8 ∧ (∀ n ∈ ns, numOK n = true) ∧ extOK e = true ∧
    s = p ++ '_' :: (List.intercalate ['_'] ns ++ '.' :: e)

/-- Counterexample to C9 as stated: `a_1_2_3_4_5_6_7_8.png` ends in 8
underscore-separated decimal numbers before a recognized extension, yet
`extractCornersCoordsFromFilename` returns false, because the regex
requires `_.png` (underscore before the dot) at the end. -/
theorem C9_counterexample :
    specFilenameConvention (String.toList "a_1_2_3_4_5_6_7_8.png") ∧
    extractCornersCoordsFromFilename
      (String.toList "a_1_2_3_4_5_6_7_8.png") = none := by
  constructor
  · exact ⟨['a'],
      [['1'], ['2'], ['3'], ['4'], ['5'], ['6'], ['7'], ['8']],
      ['p', 'n', 'g'], rfl, by decide, by decide, by rfl⟩
  · rfl

/-- Witness for C9 at the conforming filename `a_1_2_3_4_5_6_7_8_.png`
(with the trailing underscore the regex demands). -/
theorem C9_witness :
    extractCornersCoordsFromFilename
      (String.toList "a_1_2_3_4_5_6_7_8_.png") =
      some (String.toList "1,2,3,4,5,6,7,8") ∧
    isValidCalibString (String.toList "1,2,3,4,5,6,7,8") = true := by
  have hx : extractCornersCoordsFromFilename
      (String.toList "a_1_2_3_4_5_6_7_8_.png") =
      some (String.toList "1,2,3,4,5,6,7,8") := by rfl
  obtain ⟨f, -, -, -, hv⟩ := C9_theorem.1 _ _ hx
  exact ⟨hx, hv⟩

/-- Length of the `palette` array of `drawTrackOnMap`: the RGBA byte data
of a 1x256 gradient image (`getImageData(0, 0, 1, 256).data`). -/
def paletteLength : ℕ := 256 * 4

/-- Source: first statement of `getRGBForValue` in `mapdump.js`:
`Math.min(Math.max((value - minSpeed) / (maxSpeed - minSpeed), 0), 0.999)`
over JavaScript number semantics. -/
noncomputable def valueRelativeRaw (value minS maxS : JSNum) : JSNum :=
  JSNum.jmin
    (JSNum.jmax (JSNum.div (JSNum.sub value minS) (JSNum.sub maxS minS))
      (JSNum.fin 0))
    (JSNum.fin 0.999)

/-- Source: the NaN substitution of `getRGBForValue`:
`if (Number.isNaN(valueRelative)) \x7b valueRelative = 0; \x7d`. -/
noncomputable def valueRelativeJS (value minS maxS : JSNum) : JSNum :=
  if (valueRelativeRaw value minS maxS).isNaN then JSNum.fin 0
  else valueRelativeRaw value minS maxS

/-- The clamped ratio as a real number; it is always finite, see
`valueRelativeJS_fin`. -/
noncomputable def valueRelativeReal (value minS maxS : JSNum) : ℝ :=
  match valueRelativeJS value minS maxS with
  | JSNum.fin x => x
  | _ => 0

/-- Source: `paletteIndex` of `getRGBForPercent` in `mapdump.js`:
`Math.min(Math.floor(valueRelative * 256) * 4, palette.length - 4)`. -/
noncomputable def paletteIndex (value minS maxS : JSNum) : ℤ :=
  min (⌊valueRelativeReal value minS maxS * 256⌋ * 4)
    ((paletteLength : ℤ) - 4)

lemma valueRelativeJS_fin (value minS maxS : JSNum) :
    ∃ x : ℝ, valueRelativeJS value minS maxS = JSNum.fin x ∧
      0 ≤ x ∧ x ≤ 0.999 := by
  cases hd : JSNum.div (JSNum.sub value minS) (JSNum.sub maxS minS) with
  | fin y =>
      refine ⟨min (max y 0) 0.999, ?_, ?_, min_le_right _ _⟩
      · simp [valueRelativeJS, valueRelativeRaw, hd, JSNum.jmax, JSNum.jmin,
          JSNum.isNaN]
      · exact le_min (le_max_right y 0) (by norm_num)
  | nan =>
      refine ⟨0, ?_, le_refl 0, by norm_num⟩
      simp [valueRelativeJS, valueRelativeRaw, hd, JSNum.jmax, JSNum.jmin,
        JSNum.isNaN]
  | inf =>
      refine ⟨0.999, ?_, by norm_num, le_refl _⟩
      simp [valueRelativeJS, valueRelativeRaw, hd, JSNum.jmax, JSNum.jmin,
        JSNum.isNaN]
  | ninf =>
      refine ⟨0, ?_, le_refl 0, by norm_num⟩
      simp [valueRelativeJS, valueRelativeRaw, hd, JSNum.jmax, JSNum.jmin,
        JSNum.isNaN]
      norm_num

lemma paletteIndex_bounds (value minS maxS : JSNum) :
    0 ≤ paletteIndex value minS maxS ∧
      paletteIndex value minS maxS ≤ (paletteLength : ℤ) - 4 := by
  obtain ⟨x, hx, hx0, hx1⟩ := valueRelativeJS_fin value minS maxS
  have hreal : valueRelativeReal value minS maxS = x := by
    rw [valueRelativeReal, hx]
  constructor
  · rw [paletteIndex, hreal]
    have h1 : (0 : ℤ) ≤ ⌊x * 256⌋ :=
      Int.floor_nonneg.mpr (mul_nonneg hx0 (by norm_num))
    refine le_min (by linarith) (by norm_num [paletteLength])
  · rw [paletteIndex]
    exact min_le_right _ _

lemma paletteIndex_nan (value minS maxS : JSNum)
    (h : (valueRelativeRaw value minS maxS).isNaN = true) :
    paletteIndex value minS maxS = 0 := by
  have hjs : valueRelativeJS value minS maxS = JSNum.fin 0 := by
    rw [valueRelativeJS, if_pos h]
  have hreal : valueRelativeReal value minS maxS = 0 := by
    rw [valueRelativeReal, hjs]
  rw [paletteIndex, hreal]
  norm_num [paletteLength]

/-- C10: for every speed value (including NaN and infinities produced
upstream) and any palette normalization bounds, the palette index computed
by `getRGBForValue` / `getRGBForPercent` stays within the palette bounds
`[0, palette.length - 4]` (so all three RGB reads are in bounds), and a
NaN normalized ratio is clamped to index 0, the red end of the palette. -/
theorem C10_theorem (value minS maxS : JSNum) :
    (0 ≤ paletteIndex value minS maxS ∧
      paletteIndex value minS maxS ≤ (paletteLength : ℤ) - 4) ∧
    ((valueRelativeRaw value minS maxS).isNaN = true →
      paletteIndex value minS maxS = 0) :=
  ⟨paletteIndex_bounds value minS maxS, paletteIndex_nan value minS maxS⟩

/-- Witness for C10 at `value = NaN`, `minSpeed = 0`, `maxSpeed = 1`. -/
theorem C10_witness :
    (0 ≤ paletteIndex JSNum.nan (JSNum.fin 0) (JSNum.fin 1) ∧
      paletteIndex JSNum.nan (JSNum.fin 0) (JSNum.fin 1) ≤
        (paletteLength : ℤ) - 4) ∧
    (valueRelativeRaw JSNum.nan (JSNum.fin 0) (JSNum.fin 1)).isNaN = true ∧
    paletteIndex JSNum.nan (JSNum.fin 0) (JSNum.fin 1) = 0 := by
  have hn : (valueRelativeRaw JSNum.nan (JSNum.fin 0)
      (JSNum.fin 1)).isNaN = true := by
    simp [valueRelativeRaw, JSNum.sub, JSNum.div, JSNum.jmax, JSNum.jmin,
      JSNum.isNaN]
  exact ⟨(C10_theorem JSNum.nan (JSNum.fin 0) (JSNum.fin 1)).1, hn,
    (C10_theorem JSNum.nan (JSNum.fin 0) (JSNum.fin 1)).2 hn⟩

end RC
